import Mathlib

/-!
Verification development for the bottest32 Telegram-bot repository.

The Python sources under `src/bottest32/` (`middlewares.py`, `webhook.py`,
`tasks.py`, `config.py`, `main.py`) are shallowly embedded as pure Lean
functions below.  Strings are modelled as lists of characters (ASCII model
of Python's `str` operations); the user database (`database.py` is not part
of the covered sources, so its operations are modelled from the design
document's UserRepository capability) is a list of user records; fallible
repository writes are modelled with an explicit fault parameter and an
`Except` result that carries the database state at the point of the raised
exception.
-/

namespace BotTest

/-! Python string model -/

/-- Python strings as lists of characters. -/
abbrev PStr := List Char

/-- Whitespace as recognized by Python's `str.strip` / `str.split`
(ASCII model). -/
def pyIsSpace (c : Char) : Bool :=
  c == ' ' || c == '\t' || c == '\n' || c == '\r' || c == '\x0b' || c == '\x0c'

/-- Python `s.strip()`: drop leading and trailing whitespace. -/
def pyStrip (s : PStr) : PStr :=
  ((s.dropWhile pyIsSpace).reverse.dropWhile pyIsSpace).reverse

/-- Python `s.startswith(p)` on lists of characters. -/
def startsWithL : PStr → PStr → Bool
  | [], _ => true
  | _ :: _, [] => false
  | c :: p, d :: s => c == d && startsWithL p s

/-- Python `s.lower()` (ASCII model). -/
def pyLower (s : PStr) : PStr := s.map Char.toLower

/-- Python `s.split(maxsplit=1)` with the default separator: skip leading
whitespace; if nothing remains the result is empty; otherwise the first
element is the first maximal whitespace-free run, and if anything follows
the separating whitespace run, it is returned whole as the second element. -/
def pySplitMax1 (s : PStr) : List PStr :=
  let s1 := s.dropWhile pyIsSpace
  match s1 with
  | [] => []
  | _ :: _ =>
    let tok := s1.takeWhile (fun c => !pyIsSpace c)
    let rest := (s1.dropWhile (fun c => !pyIsSpace c)).dropWhile pyIsSpace
    match rest with
    | [] => [tok]
    | _ :: _ => [tok, rest]

/-- Numeric value of a list of decimal digits (Python `int` on a digit
string). -/
def digitsVal (ds : PStr) : Nat :=
  ds.foldl (fun n c => 10 * n + (c.toNat - '0'.toNat)) 0

theorem dropWhile_length_le (p : Char → Bool) (l : List Char) :
    (l.dropWhile p).length ≤ l.length := by
  induction l with
  | nil => exact Nat.le_refl _
  | cons c cs ih =>
    rw [List.dropWhile_cons]
    split
    · exact Nat.le_succ_of_le ih
    · exact Nat.le_refl _

/-- Python `s.split()` with the default separator: the list of maximal
whitespace-free runs of `s`. -/
def pyWords (s : PStr) : List PStr :=
  match h : s.dropWhile pyIsSpace with
  | [] => []
  | c :: cs =>
    (c :: cs.takeWhile (fun d => !pyIsSpace d)) :: pyWords (cs.dropWhile (fun d => !pyIsSpace d))
termination_by s.length
decreasing_by
  have h1 : (s.dropWhile pyIsSpace).length ≤ s.length := dropWhile_length_le pyIsSpace s
  rw [h] at h1
  have h2 : (cs.dropWhile (fun d => !pyIsSpace d)).length ≤ cs.length :=
    dropWhile_length_le _ cs
  simp only [List.length_cons] at h1
  omega

/-! Events and the inbound-interaction context

An aiogram `TelegramObject` event is either a `Message` (with an optional
text and the chat it arrived in), a `CallbackQuery` (whose attached message,
when present, carries a chat id), or some other update type. -/

/-- Inbound event shape, as far as the covered code inspects it. -/
inductive Event where
  | message (text : Option PStr) (chatId : Int)
  | callbackQuery (messageChatId : Option Int)
  | other
deriving DecidableEq

/-- FlyerCheckMiddleware._extract_referred_by (middlewares.py 186-212):
only messages are considered; the text is stripped and must start with
"/start"; the payload is split at the first whitespace run; the first
whitespace-free token of the remainder must be (case-insensitively) "ref"
followed by one or more decimal digits; a value equal to the user's own id
is discarded. -/
def extract_referred_by (event : Event) (telegram_id : Int) : Option Int :=
  match event with
  | .message textOpt _ =>
    let text := pyStrip (textOpt.getD [])
    if !startsWithL "/start".toList text then none
    else
      match pySplitMax1 text with
      | _ :: part1 :: _ =>
        let arg := (pyStrip part1).takeWhile (fun c => !pyIsSpace c)
        if !startsWithL "ref".toList (pyLower arg) then none
        else
          let rest := arg.drop 3
          if rest.isEmpty || !rest.all Char.isDigit then none
          else
            let referredBy : Int := (digitsVal rest : Nat)
            if referredBy == telegram_id then none
            else some referredBy
      | _ => none
  | _ => none

/-! Specification-side referral extraction (claim C7)

The claim describes the extraction rule in terms of the token decomposition
of the payload: the payload splits at the first whitespace into a /start
command and a second token of shape ref<digits>.  A "/start command" is
read, as everywhere in this repository, as a first token beginning with
"/start".  The definition below follows those words over the word list of
the payload and is compared with the source-derived extractor above. -/

/-- Recognizer for the claim's token shape: the case-insensitive three-letter
"ref" followed by one or more decimal digits, whose value is returned. -/
def refTokenValue (arg : PStr) : Option Nat :=
  match arg with
  | c1 :: c2 :: c3 :: ds =>
    if c1.toLower == 'r' && c2.toLower == 'e' && c3.toLower == 'f'
        && !ds.isEmpty && ds.all Char.isDigit
    then some (digitsVal ds) else none
  | _ => none

/-- Referral extraction as worded by claim C7, over the whitespace-token
list of the payload. -/
def spec_referral_code (text : PStr) (selfId : Int) : Option Int :=
  match pyWords (pyStrip text) with
  | tok0 :: tok1 :: _ =>
    if startsWithL "/start".toList tok0 then
      match refTokenValue tok1 with
      | some r => if (r : Int) = selfId then none else some (r : Int)
      | none => none
    else none
  | _ => none

/-! Data model and repository

The persistence layer (database.py) is not among the covered sources; its
record shape and operations are modelled from the design document's
UserRecord data model (section 3) and UserRepository capability
(section 6). -/

/-- Modelled from the spec: UserRecord (section 3); database.py is not among
the covered sources. -/
structure User where
  telegram_id : Int
  balance : Int
  username : Option PStr
  referred_by : Option Int
  flyer_verified : Bool
  is_subscribed : Bool
deriving DecidableEq

/-- The user table, keyed by telegram_id. -/
abbrev Db := List User

/-- Modelled from the spec: UserRepository get(id). -/
def get_user (db : Db) (tid : Int) : Option User :=
  db.find? (fun u => u.telegram_id == tid)

/-- Modelled from the spec: UserRepository create(id, initialBalance,
referredBy?, username?) — the record is created with the given initial
values and with flyerVerified = false, isSubscribed = false (section 3
lifecycle, section 4.1 step 1). -/
def create_user (db : Db) (tid : Int) (balance : Int) (referredBy : Option Int)
    (username : Option PStr) : Db :=
  db ++ [⟨tid, balance, username, referredBy, false, false⟩]

/-- Point update of the record with the given id (no-op on other records
and when the id is unknown). -/
def update_user (db : Db) (tid : Int) (f : User → User) : Db :=
  db.map (fun u => if u.telegram_id == tid then f u else u)

/-- Modelled from the spec: UserRepository assignReferrer(id, referrerId),
a no-op (not an error) when a referrer is already assigned (section 6). -/
def assign_referrer (db : Db) (tid : Int) (r : Int) : Db :=
  update_user db tid (fun u =>
    if u.referred_by = none then { u with referred_by := some r } else u)

/-- Modelled from the spec: UserRepository updateUsername(id, username). -/
def update_username (db : Db) (tid : Int) (un : PStr) : Db :=
  update_user db tid (fun u => { u with username := some un })

/-- Modelled from the spec: UserRepository setVerified(id, bool). -/
def set_flyer_verified (db : Db) (tid : Int) (b : Bool) : Db :=
  update_user db tid (fun u => { u with flyer_verified := b })

/-- Modelled from the spec: UserRepository listAll(). -/
def list_all_users (db : Db) : List User := db

/-! Fallible repository writes

The covered code awaits repository writes without any try/except, so a
write that raises propagates out of the caller.  A fault parameter says
which write operation, if any, raises; the Except error value carries the
database state at the point of the raise. -/

/-- Which repository write, if any, raises. -/
inductive DbFault where
  | noFault
  | failCreate
  | failAssign
  | failUpdateUsername
  | failSetVerified
deriving DecidableEq

def create_userF (fault : DbFault) (db : Db) (tid : Int) (balance : Int)
    (referredBy : Option Int) (username : Option PStr) : Except Db Db :=
  if fault == .failCreate then .error db
  else .ok (create_user db tid balance referredBy username)

def assign_referrerF (fault : DbFault) (db : Db) (tid : Int) (r : Int) : Except Db Db :=
  if fault == .failAssign then .error db else .ok (assign_referrer db tid r)

def update_usernameF (fault : DbFault) (db : Db) (tid : Int) (un : PStr) : Except Db Db :=
  if fault == .failUpdateUsername then .error db else .ok (update_username db tid un)

def set_flyer_verifiedF (fault : DbFault) (db : Db) (tid : Int) (b : Bool) : Except Db Db :=
  if fault == .failSetVerified then .error db else .ok (set_flyer_verified db tid b)

/-! Side effects and oracles -/

/-- Outbound side effects emitted by the covered code.  Delivery failures
are suppressed or logged at every emission site, so an effect stands for an
attempted external call. -/
inductive Effect where
  | welcome (uid : Int) (chatId : Option Int)
  | callbackAck
  | logCheckError
  | unsubReaction (uid : Int)
  | resubscribePrompt (chatId : Int)
deriving DecidableEq

/-- Outcome of the external flyer.check call: a boolean answer, or a raised
error (APIError and any other exception are handled identically by the
gate: log and fall through). -/
inductive CheckResult where
  | ok (allowed : Bool)
  | error
deriving DecidableEq

/-- The triggering user, as read from data.get("event_from_user"). -/
structure GateUser where
  id : Int
  username : Option PStr
deriving DecidableEq

/-- Contents of the aiogram data dict, as far as the middleware reads it. -/
structure GateCtx where
  user : Option GateUser
  hasBot : Bool
  hasSettings : Bool
deriving DecidableEq

/-- Truthiness of `user_record and user_record.flyer_verified`. -/
def record_is_verified : Option User → Bool
  | some rec => rec.flyer_verified
  | none => false

/-! The interactive verification gate (FlyerCheckMiddleware) -/

/-- Continuation of _trigger_start after the chat id is determined: give up
without a chat id, a known user, or settings; otherwise attempt the start
flow (failures suppressed). -/
def finish_trigger (chatId : Option Int) (ctx : GateCtx) : List Effect :=
  match chatId, ctx.user with
  | some cid, some u => if ctx.hasSettings then [.welcome u.id (some cid)] else []
  | _, _ => []

/-- FlyerCheckMiddleware._trigger_start (middlewares.py 149-184): nothing
without a bot; for a message whose raw text starts with "/start" nothing
(double-invocation guard); the chat id comes from the message or from the
callback query's attached message. -/
def trigger_start (event : Event) (ctx : GateCtx) : List Effect :=
  if !ctx.hasBot then []
  else
    match event with
    | .message textOpt chatId =>
      if startsWithL "/start".toList (textOpt.getD []) then []
      else finish_trigger (some chatId) ctx
    | .callbackQuery (some mcid) => finish_trigger (some mcid) ctx
    | .callbackQuery none => finish_trigger none ctx
    | .other => finish_trigger none ctx

/-- FlyerCheckMiddleware._notify_verification_required (middlewares.py
119-122): a denied callback query is answered (errors suppressed); a denied
message gets nothing. -/
def notify_verification_required (event : Event) : List Effect :=
  match event with
  | .callbackQuery _ => [.callbackAck]
  | _ => []

/-- Conditional username write shared by _remember_user_context
(middlewares.py 135-138) and the gate success path (108-111): update only
when a fresh username is present and differs from the one in the record
read at step start. -/
def write_username_if_fresh (fault : DbFault) (uid : Int) (username : Option PStr)
    (rec : User) (db : Db) : Except Db Db :=
  match username with
  | some un =>
    if some un ≠ rec.username then update_usernameF fault db uid un
    else Except.ok db
  | none => Except.ok db

/-- Conditional referrer write shared by _remember_user_context
(middlewares.py 140-147) and the gate success path (100-107): assign only a
present, non-self candidate, and only when the record read at step start
had no referrer. -/
def write_referrer_if_unset (fault : DbFault) (uid : Int) (referredBy : Option Int)
    (rec : User) (db : Db) : Except Db Db :=
  match referredBy with
  | some r =>
    if r ≠ uid ∧ rec.referred_by = none then assign_referrerF fault db uid r
    else Except.ok db
  | none => Except.ok db

/-- FlyerCheckMiddleware._remember_user_context (middlewares.py 124-147):
create the record (with the candidate referrer and username as initial
values) when absent; otherwise update the username when a fresh one
differs, then assign the referrer when one is present, is not the user
itself, and none is assigned yet. -/
def remember_user_context (fault : DbFault) (tid : Int) (username : Option PStr)
    (referredBy : Option Int) (record : Option User) (db : Db) : Except Db Db :=
  match record with
  | none => create_userF fault db tid 0 referredBy username
  | some rec =>
    match write_username_if_fresh fault tid username rec db with
    | .error e => .error e
    | .ok db1 => write_referrer_if_unset fault tid referredBy rec db1

/-- Success-path repository writes of FlyerCheckMiddleware.__call__
(middlewares.py 92-111), run before set_flyer_verified: create the absent
record with the candidate referrer and username as initial values, or
update the existing record — referrer first (only when present, not the
user itself, and none assigned yet), then username (only when fresh and
different). -/
def gate_success_writes (fault : DbFault) (uid : Int) (username : Option PStr)
    (referredBy : Option Int) (record : Option User) (db : Db) : Except Db Db :=
  match record with
  | none => create_userF fault db uid 0 referredBy username
  | some rec =>
    match write_referrer_if_unset fault uid referredBy rec db with
    | .error e => .error e
    | .ok dbA => write_username_if_fresh fault uid username rec dbA

/-- Result of one pass of the gate middleware. -/
structure GateResult where
  db : Db
  handlerCalled : Bool
  checkInvoked : Bool
  effects : List Effect
deriving DecidableEq

/-- FlyerCheckMiddleware.__call__ (middlewares.py 48-117).  The checker
outcome is an oracle parameter; an Except.error result models an uncaught
repository exception propagating out of the middleware with the database in
the carried state — no handler call and no side effect happens then. -/
def flyer_gate (fault : DbFault) (event : Event) (ctx : GateCtx)
    (chk : CheckResult) (db : Db) : Except Db GateResult :=
  match ctx.user with
  | none => .ok ⟨db, true, false, []⟩
  | some user =>
    let user_record := get_user db user.id
    let referredBy := extract_referred_by event user.id
    let username := user.username
    if record_is_verified user_record then .ok ⟨db, true, false, []⟩
    else
      let wasVerified := record_is_verified user_record
      match chk with
      | .error => .ok ⟨db, true, true, [.logCheckError]⟩
      | .ok false =>
        match remember_user_context fault user.id username referredBy user_record db with
        | .error e => .error e
        | .ok db1 => .ok ⟨db1, false, true, notify_verification_required event⟩
      | .ok true =>
        match gate_success_writes fault user.id username referredBy user_record db with
        | .error e => .error e
        | .ok db1 =>
          match set_flyer_verifiedF fault db1 user.id true with
          | .error e => .error e
          | .ok db2 =>
            .ok ⟨db2, true, true, if !wasVerified then trigger_start event ctx else []⟩

/-! Webhook payloads (Python values) -/

/-- Python values as produced by request.json(); JSON null maps to Python
None (the pynone constructor). -/
inductive PyVal where
  | pynone
  | int (n : Int)
  | str (s : PStr)
  | bool (b : Bool)
  | dict (fields : List (String × PyVal))
  | list (elems : List PyVal)

/-- Python dict.get: the first binding of the key, or None. -/
def pyDictGet (fields : List (String × PyVal)) (key : String) : PyVal :=
  match fields.find? (fun kv => kv.1 == key) with
  | some kv => kv.2
  | none => .pynone

/-- Python equality of an arbitrary value against a string literal. -/
def pyEqStr (v : PyVal) (s : String) : Bool :=
  match v with
  | .str t => t == s.toList
  | _ => false

/-- Inner loop of _extract_first (webhook.py 19-28): walk a path of keys;
some v when the walk completes (v can be Python None for an absent final
key), none when it broke off at a non-dict value. -/
def walkPath (payload : PyVal) (path : List String) : Option PyVal :=
  match path with
  | [] => some payload
  | key :: rest =>
    match payload with
    | .dict fields => walkPath (pyDictGet fields key) rest
    | _ => none

/-- webhook._extract_first: the first path whose walk completes wins, even
when the walk produced Python None. -/
def extract_first (payload : PyVal) (paths : List (List String)) : PyVal :=
  match paths with
  | [] => .pynone
  | p :: rest =>
    match walkPath payload p with
    | some v => v
    | none => extract_first payload rest

/-- Python int() on a stripped string: optional sign then decimal digits
(ASCII model). -/
def pyParseInt (s : PStr) : Option Int :=
  match s with
  | '+' :: ds =>
    if ds.isEmpty || !ds.all Char.isDigit then none else some (digitsVal ds : Nat)
  | '-' :: ds =>
    if ds.isEmpty || !ds.all Char.isDigit then none else some (-(digitsVal ds : Nat) : Int)
  | ds =>
    if ds.isEmpty || !ds.all Char.isDigit then none else some (digitsVal ds : Nat)

/-- webhook._coerce_int (webhook.py 31-42): ints pass through (a Python
bool is an int: True counts as 1, False as 0), strings are stripped and
parsed as an integer literal, everything else is rejected. -/
def coerce_int (v : PyVal) : Option Int :=
  match v with
  | .int n => some n
  | .bool b => some (if b then 1 else 0)
  | .str s => pyParseInt (pyStrip s)
  | _ => none

/-- webhook._extract_telegram_id (webhook.py 45-58). -/
def extract_telegram_id (payload : PyVal) : Option Int :=
  coerce_int (extract_first payload
    [["telegram_id"], ["chat_id"], ["user_id"],
     ["data", "telegram_id"], ["data", "chat_id"], ["data", "user_id"],
     ["data", "user", "id"]])

/-- webhook._extract_chat_id (webhook.py 61-70). -/
def extract_chat_id (payload : PyVal) (fallbackId : Int) : Int :=
  match coerce_int (extract_first payload [["chat_id"], ["data", "chat_id"]]) with
  | some c => c
  | none => fallbackId

/-- webhook._extract_username (webhook.py 73-87): a string result is
stripped, with the empty string degrading to None; anything else is None. -/
def extract_username (payload : PyVal) : Option PStr :=
  match extract_first payload [["username"], ["data", "username"], ["data", "user", "username"]] with
  | .str s =>
    let t := pyStrip s
    if t.isEmpty then none else some t
  | _ => none

/-- webhook._ensure_user_record (webhook.py 90-98): create the record when
absent (re-reading it afterwards); else opportunistically update the
username when a truthy fresh one differs.  Returns the record as the caller
sees it. -/
def ensure_user_record (fault : DbFault) (tid : Int) (username : Option PStr)
    (db : Db) : Except Db (Db × Option User) :=
  match get_user db tid with
  | none =>
    match create_userF fault db tid 0 none username with
    | .error e => .error e
    | .ok db1 => .ok (db1, get_user db1 tid)
  | some u =>
    match username with
    | some un =>
      if un ≠ [] ∧ u.username ≠ some un then
        match update_usernameF fault db tid un with
        | .error e => .error e
        | .ok db1 => .ok (db1, some { u with username := some un })
      else Except.ok (db, some u)
    | none => Except.ok (db, some u)

/-- flyer_webhook (webhook.py 104-188).  body = none models a request whose
JSON parsing raised (caught: acknowledged).  Except.ok means the fixed
success acknowledgment, with the effects of the detached fire-and-forget
tasks listed alongside (their own failures are logged inside the task and
never affect the acknowledgment).  Except.error models an uncaught
exception (the generic 500 response): a non-dict payload raises
AttributeError at payload.get, and an injected repository fault raises at
the corresponding awaited write. -/
def flyer_webhook (fault : DbFault) (body : Option PyVal) (db : Db) :
    Except Db (Db × List Effect) :=
  match body with
  | none => .ok (db, [])
  | some payload =>
    match payload with
    | .dict fields =>
      let eventType := pyDictGet fields "type"
      if pyEqStr eventType "test" then .ok (db, [])
      else
        match extract_telegram_id payload with
        | none => .ok (db, [])
        | some tid =>
          let username := extract_username payload
          let chatId := extract_chat_id payload tid
          if pyEqStr eventType "sub_completed" then
            match ensure_user_record fault tid username db with
            | .error e => .error e
            | .ok (db1, user) =>
              let alreadyVerified := record_is_verified user
              match set_flyer_verifiedF fault db1 tid true with
              | .error e => .error e
              | .ok db2 =>
                Except.ok (db2,
                  if !alreadyVerified then [Effect.welcome tid (some chatId)] else [])
          else if pyEqStr eventType "new_status" then
            if pyEqStr (extract_first payload [["data", "status"]]) "abort" then
              match set_flyer_verifiedF fault db tid false with
              | .error e => .error e
              | .ok db1 =>
                match ensure_user_record fault tid username db1 with
                | .error e => .error e
                | .ok (db2, user) =>
                  let es :=
                    match user with
                    | some _ => [Effect.unsubReaction tid]
                    | none => []
                  Except.ok (db2, es ++ [Effect.resubscribePrompt chatId])
            else .ok (db, [])
          else .ok (db, [])
    | _ => .error db

/-! The per-user interaction throttle (ThrottlingMiddleware) -/

/-- Per-user last-interaction timestamps.  Python uses defaultdict(float),
so an unknown id reads as 0.0; the defaultdict's insertion of that default
on a read is dropped here since it never changes any later read. -/
abbrev Timestamps := List (Int × ℚ)

def tsGet (ts : Timestamps) (uid : Int) : ℚ :=
  match ts.find? (fun kv => kv.1 == uid) with
  | some kv => kv.2
  | none => 0

def tsSet (ts : Timestamps) (uid : Int) (t : ℚ) : Timestamps :=
  if (ts.find? (fun kv => kv.1 == uid)).isSome then
    ts.map (fun kv => if kv.1 == uid then (kv.1, t) else kv)
  else ts ++ [(uid, t)]

/-- ThrottlingMiddleware.__call__ (middlewares.py 21-37): without a user the
handler runs; otherwise the interaction is dropped when it arrives sooner
than rate_limit after the previous one for that user, else the timestamp is
updated and the handler runs. -/
def throttling_step (rateLimit : ℚ) (userId : Option Int) (now : ℚ)
    (ts : Timestamps) : Timestamps × Bool :=
  match userId with
  | none => (ts, true)
  | some uid =>
    let lastTime := tsGet ts uid
    if now - lastTime < rateLimit then (ts, false)
    else (tsSet ts uid now, true)

/-- Result of the full message-path middleware chain. -/
structure PipelineResult where
  db : Db
  checkInvoked : Bool
  effects : List Effect
  timestamps : Timestamps
  businessHandlerRan : Bool
deriving DecidableEq

/-- Message-path middleware composition wired in main (main.py 39-41):
FlyerCheckMiddleware is registered first and is therefore outermost;
ThrottlingMiddleware(rate_limit=0.5) runs as the handler the gate invokes;
the business handlers run only when both pass the event on. -/
def message_pipeline (event : Event) (ctx : GateCtx) (chk : CheckResult)
    (db : Db) (ts : Timestamps) (now : ℚ) : PipelineResult :=
  match flyer_gate .noFault event ctx chk db with
  | .error db' => ⟨db', false, [], ts, false⟩
  | .ok g =>
    if g.handlerCalled then
      let (ts', pass) := throttling_step (1 / 2) (ctx.user.map (fun u => u.id)) now ts
      ⟨g.db, g.checkInvoked, g.effects, ts', pass⟩
    else ⟨g.db, g.checkInvoked, g.effects, ts, false⟩

/-! The reconciliation sweep (tasks.run_referral_audit) -/

/-- Python truthiness of an optional integer: None and 0 are falsy. -/
def pyTruthyOptInt : Option Int → Bool
  | none => false
  | some n => !(n == 0)

/-- Selection made by one run_referral_audit sweep (tasks.py 26-29): the
enumerated users not skipped by the guard
`if not user.referred_by or not user.is_subscribed: continue`. -/
def audit_selected (db : Db) : List Int :=
  ((list_all_users db).filter
    (fun u => pyTruthyOptInt u.referred_by && u.is_subscribed)).map
    (fun u => u.telegram_id)

/-- Modelled from the spec: handlers._verify_and_activate_subscription is
not among the covered sources; section 4.5 has the sweep re-run the Shared
Transition Core's verification re-check (section 4.1) for the user, here
with no candidate username or referrer: an already verified record is left
alone; a checker failure or a negative answer mutates nothing; a positive
answer sets flyerVerified, with the welcome side effect on a first
false-to-true transition. -/
def verify_and_activate (chk : CheckResult) (tid : Int) (db : Db) : Db × List Effect :=
  let db0 :=
    match get_user db tid with
    | none => create_user db tid 0 none none
    | some _ => db
  match get_user db0 tid with
  | none => (db0, [])
  | some rec =>
    if rec.flyer_verified then (db0, [])
    else
      match chk with
      | .error => (db0, [])
      | .ok false => (db0, [])
      | .ok true => (set_flyer_verified db0 tid true, [.welcome tid none])

/-- Loop body of the run_referral_audit sweep (tasks.py 27-38): skip users
failing the truthiness guard, otherwise re-check one user; per-user
failures are caught and logged, so the fold continues regardless. -/
def audit_user_step (chks : Int → CheckResult) (acc : Db × List Effect) (u : User) :
    Db × List Effect :=
  if !(pyTruthyOptInt u.referred_by && u.is_subscribed) then acc
  else
    let r := verify_and_activate (chks u.telegram_id) u.telegram_id acc.1
    (r.1, acc.2 ++ r.2)

/-- One sweep of run_referral_audit (tasks.py 24-38) over the snapshot
enumeration, with a per-user checker oracle. -/
def audit_cycle (chks : Int → CheckResult) (db : Db) : Db × List Effect :=
  (list_all_users db).foldl (audit_user_step chks) (db, [])

/-! Sequential trace semantics over the three stimulus channels -/

/-- One stimulus from any of the three channels (fault-free repository). -/
inductive Op where
  | gate (event : Event) (ctx : GateCtx) (chk : CheckResult)
  | webhook (body : Option PyVal)
  | audit (chks : Int → CheckResult)

/-- Apply one stimulus to the database; a step aborted by an uncaught
exception leaves the database as at the raise and delivers no effects. -/
def step (db : Db) (op : Op) : Db × List Effect :=
  match op with
  | .gate event ctx chk =>
    match flyer_gate .noFault event ctx chk db with
    | .ok g => (g.db, g.effects)
    | .error db' => (db', [])
  | .webhook body =>
    match flyer_webhook .noFault body db with
    | .ok r => r
    | .error db' => (db', [])
  | .audit chks => audit_cycle chks db

/-- Accumulate one stimulus into a database-and-effects pair. -/
def run_step (acc : Db × List Effect) (op : Op) : Db × List Effect :=
  let r := step acc.1 op
  (r.1, acc.2 ++ r.2)

/-- Run a sequence of stimuli, accumulating emitted effects. -/
def run_ops (db : Db) (ops : List Op) : Db × List Effect :=
  ops.foldl run_step (db, [])

/-! Configuration (config.py, main.py) -/

/-- Settings (config.py 6-16), a slots dataclass: instances carry exactly
these fields. -/
structure Settings where
  bot_token : String
  channel_username : String
  admin_ids : List Int
  flyer_api_key : String
  min_withdrawal : Int := 15
  start_bonus : Int := 3
  referral_bonus : Int := 3
  daily_bonus : Int := 1
deriving DecidableEq

/-- Attribute names a Settings instance carries (slots=True forbids any
other attribute). -/
def settingsSlots : List String :=
  ["bot_token", "channel_username", "admin_ids", "flyer_api_key",
   "min_withdrawal", "start_bonus", "referral_bonus", "daily_bonus"]

/-- Python hasattr on a Settings instance. -/
def settingsHasAttr (_s : Settings) (name : String) : Bool :=
  settingsSlots.contains name

/-- config.load_settings (config.py 18-36) over an environment oracle. -/
def load_settings (env : String → Option String) : Settings :=
  let token := (env "BOT_TOKEN").getD "8413197852:AAGnWgpALWsFVuXdAGaa9zi5XC3BRK-Ykuw"
  let channel := (env "CHANNEL_USERNAME").getD "@giftsauctionsru"
  let rawAdmins := (env "ADMIN_IDS").getD "5838432507"
  let adminIds := (rawAdmins.splitOn ",").filterMap (fun part =>
    let t := part.trim
    if !t.isEmpty && t.toList.all Char.isDigit then some ((digitsVal t.toList : Nat) : Int)
    else none)
  let flyerKey := (env "FLYER_API_KEY").getD "FL-nDnAdz-lUODDB-jYqtsJ-neLImC"
  { bot_token := token
    channel_username := channel
    admin_ids := if adminIds.isEmpty then [123456789] else adminIds
    flyer_api_key := flyerKey }

/-- Attribute names main reads from the settings object to build the
uvicorn configuration (main.py 50-51). -/
def main_uvicorn_settings_attrs : List String := ["webhook_host", "webhook_port"]

/-! Derived observations used by the claims -/

/-- The referrer recorded for an id (none when the record is absent or has
no referrer). -/
def referrer_of (db : Db) (tid : Int) : Option Int :=
  (get_user db tid).bind (fun u => u.referred_by)

/-- No record names itself as its referrer. -/
def NoSelfReferral (db : Db) : Prop :=
  ∀ u ∈ db, u.referred_by ≠ some u.telegram_id

/-- Number of welcome-flow attempts for a given user in an effect list. -/
def countWelcome (es : List Effect) (uid : Int) : Nat :=
  es.countP (fun e =>
    match e with
    | .welcome u _ => u == uid
    | _ => false)

/-- Whether the event is a message whose raw text starts with "/start". -/
def msg_is_start (event : Event) : Bool :=
  match event with
  | .message textOpt _ => startsWithL "/start".toList (textOpt.getD [])
  | _ => false

/-- The chat target _trigger_start can determine for an event. -/
def gate_chat_id (event : Event) : Option Int :=
  match event with
  | .message _ chatId => some chatId
  | .callbackQuery mcid => mcid
  | .other => none

/-- Reusable concrete webhook payload: subscription completion for user n
(flat telegram_id key). -/
def subPayload (n : Int) : PyVal :=
  .dict [("type", .str "sub_completed".toList), ("telegram_id", .int n)]

/-- Reusable concrete webhook payload: unsubscription (new_status/abort)
for user n (flat telegram_id key). -/
def abortPayload (n : Int) : PyVal :=
  .dict [("type", .str "new_status".toList), ("telegram_id", .int n),
    ("data", .dict [("status", .str "abort".toList)])]

/-! Database toolkit lemmas -/

theorem find?_map_pres {α : Type} (g : α → α) (p : α → Bool)
    (hp : ∀ u, p (g u) = p u) : ∀ l : List α, (l.map g).find? p = (l.find? p).map g := by
  intro l
  induction l with
  | nil => rfl
  | cons a l ih =>
    by_cases h : p a = true
    · rw [List.map_cons, List.find?_cons_of_pos _ h,
        List.find?_cons_of_pos _ (by rw [hp]; exact h), Option.map_some']
    · have hga : ¬p (g a) = true := by rw [hp]; exact h
      rw [List.map_cons, List.find?_cons_of_neg _ hga, List.find?_cons_of_neg _ h, ih]

theorem get_user_update (db : Db) (tid : Int) (f : User → User)
    (hf : ∀ u, (f u).telegram_id = u.telegram_id) (t : Int) :
    get_user (update_user db tid f) t =
      (get_user db t).map (fun u => if u.telegram_id == tid then f u else u) := by
  unfold get_user update_user
  exact find?_map_pres _ _ (fun u => by by_cases h : u.telegram_id == tid <;> simp [h, hf]) db

theorem get_user_append_single (db : Db) (rec : User) (t : Int) :
    get_user (db ++ [rec]) t =
      match get_user db t with
      | some u => some u
      | none => if rec.telegram_id == t then some rec else none := by
  unfold get_user
  induction db with
  | nil =>
    by_cases h : rec.telegram_id == t <;>
      simp [List.find?, h]
  | cons a l ih =>
    by_cases h : a.telegram_id == t
    · simp [List.find?_cons_of_pos, h]
    · simpa [List.find?_cons_of_neg, h] using ih

theorem mem_update_user (db : Db) (tid : Int) (f : User → User) (v : User)
    (hv : v ∈ update_user db tid f) :
    ∃ u ∈ db, v = if u.telegram_id == tid then f u else u := by
  unfold update_user at hv
  rcases List.mem_map.mp hv with ⟨u, hu, hval⟩
  exact ⟨u, hu, hval.symm⟩

theorem mem_create_user (db : Db) (tid : Int) (b : Int) (rb : Option Int)
    (un : Option PStr) (v : User) (hv : v ∈ create_user db tid b rb un) :
    v ∈ db ∨ v = ⟨tid, b, un, rb, false, false⟩ := by
  unfold create_user at hv
  rcases List.mem_append.mp hv with h | h
  · exact Or.inl h
  · exact Or.inr (List.mem_singleton.mp h)

theorem get_user_id (db : Db) (tid : Int) (rec : User)
    (h : get_user db tid = some rec) : rec.telegram_id = tid := by
  have := List.find?_some h
  exact beq_iff_eq.mp this

theorem get_user_update_ne (db : Db) (tid : Int) (f : User → User)
    (hf : ∀ u, (f u).telegram_id = u.telegram_id) (t : Int) (ht : t ≠ tid) :
    get_user (update_user db tid f) t = get_user db t := by
  rw [get_user_update db tid f hf t]
  cases hv : get_user db t with
  | none => rfl
  | some v =>
    have hvt : v.telegram_id = t := get_user_id db t v hv
    have hne : (v.telegram_id == tid) = false := by
      rw [hvt]; exact beq_eq_false_iff_ne.mpr ht
    simp only [Option.map_some', Option.some.injEq]
    rw [if_neg]
    rw [hne]
    exact Bool.false_ne_true

theorem get_user_update_eq (db : Db) (tid : Int) (f : User → User)
    (hf : ∀ u, (f u).telegram_id = u.telegram_id) (rec : User)
    (h : get_user db tid = some rec) :
    get_user (update_user db tid f) tid = some (f rec) := by
  rw [get_user_update db tid f hf tid, h]
  have ht : (rec.telegram_id == tid) = true := by
    rw [get_user_id db tid rec h]; exact beq_self_eq_true tid
  simp only [Option.map_some', Option.some.injEq]
  rw [if_pos]
  rw [ht]

theorem get_user_create_ne (db : Db) (tid : Int) (b : Int) (rb : Option Int)
    (un : Option PStr) (t : Int) (ht : t ≠ tid) :
    get_user (create_user db tid b rb un) t = get_user db t := by
  unfold create_user
  rw [get_user_append_single]
  cases hv : get_user db t with
  | none =>
    have : ((⟨tid, b, un, rb, false, false⟩ : User).telegram_id == t) = false :=
      beq_eq_false_iff_ne.mpr (Ne.symm ht)
    simp [this]
  | some v => rfl

theorem get_user_create_absent (db : Db) (tid : Int) (b : Int) (rb : Option Int)
    (un : Option PStr) (h : get_user db tid = none) :
    get_user (create_user db tid b rb un) tid = some ⟨tid, b, un, rb, false, false⟩ := by
  unfold create_user
  rw [get_user_append_single, h]
  simp

theorem assign_referrer_pres_id (r : Int) (u : User) :
    (if u.referred_by = none then { u with referred_by := some r } else u).telegram_id
      = u.telegram_id := by
  split <;> rfl

theorem get_user_assign_ne (db : Db) (tid r t : Int) (ht : t ≠ tid) :
    get_user (assign_referrer db tid r) t = get_user db t :=
  get_user_update_ne db tid _ (assign_referrer_pres_id r) t ht

theorem get_user_assign_eq (db : Db) (tid r : Int) (rec : User)
    (h : get_user db tid = some rec) :
    get_user (assign_referrer db tid r) tid =
      some (if rec.referred_by = none then { rec with referred_by := some r } else rec) :=
  get_user_update_eq db tid _ (assign_referrer_pres_id r) rec h

theorem get_user_username_ne (db : Db) (tid : Int) (un : PStr) (t : Int) (ht : t ≠ tid) :
    get_user (update_username db tid un) t = get_user db t :=
  get_user_update_ne db tid (fun u => { u with username := some un }) (fun _ => rfl) t ht

theorem get_user_username_eq (db : Db) (tid : Int) (un : PStr) (rec : User)
    (h : get_user db tid = some rec) :
    get_user (update_username db tid un) tid = some { rec with username := some un } :=
  get_user_update_eq db tid (fun u => { u with username := some un }) (fun _ => rfl) rec h

theorem get_user_setverified_ne (db : Db) (tid : Int) (b : Bool) (t : Int) (ht : t ≠ tid) :
    get_user (set_flyer_verified db tid b) t = get_user db t :=
  get_user_update_ne db tid (fun u => { u with flyer_verified := b }) (fun _ => rfl) t ht

theorem get_user_setverified_eq (db : Db) (tid : Int) (b : Bool) (rec : User)
    (h : get_user db tid = some rec) :
    get_user (set_flyer_verified db tid b) tid = some { rec with flyer_verified := b } :=
  get_user_update_eq db tid (fun u => { u with flyer_verified := b }) (fun _ => rfl) rec h

theorem create_userF_noFault (db : Db) (tid : Int) (b : Int) (rb : Option Int)
    (un : Option PStr) :
    create_userF .noFault db tid b rb un = .ok (create_user db tid b rb un) := rfl

theorem assign_referrerF_noFault (db : Db) (tid r : Int) :
    assign_referrerF .noFault db tid r = .ok (assign_referrer db tid r) := rfl

theorem update_usernameF_noFault (db : Db) (tid : Int) (un : PStr) :
    update_usernameF .noFault db tid un = .ok (update_username db tid un) := rfl

theorem set_flyer_verifiedF_noFault (db : Db) (tid : Int) (b : Bool) :
    set_flyer_verifiedF .noFault db tid b = .ok (set_flyer_verified db tid b) := rfl

theorem create_userF_ok (fault : DbFault) (h : fault ≠ .failCreate) (db : Db)
    (tid b : Int) (rb : Option Int) (un : Option PStr) :
    create_userF fault db tid b rb un = .ok (create_user db tid b rb un) := by
  unfold create_userF
  rw [if_neg (by simp [h])]

theorem assign_referrerF_ok (fault : DbFault) (h : fault ≠ .failAssign)
    (db : Db) (tid r : Int) :
    assign_referrerF fault db tid r = .ok (assign_referrer db tid r) := by
  unfold assign_referrerF
  rw [if_neg (by simp [h])]

theorem update_usernameF_ok (fault : DbFault) (h : fault ≠ .failUpdateUsername)
    (db : Db) (tid : Int) (un : PStr) :
    update_usernameF fault db tid un = .ok (update_username db tid un) := by
  unfold update_usernameF
  rw [if_neg (by simp [h])]

theorem set_flyer_verifiedF_ok (fault : DbFault) (h : fault ≠ .failSetVerified)
    (db : Db) (tid : Int) (b : Bool) :
    set_flyer_verifiedF fault db tid b = .ok (set_flyer_verified db tid b) := by
  unfold set_flyer_verifiedF
  rw [if_neg (by simp [h])]

theorem set_flyer_verifiedF_fail (db : Db) (tid : Int) (b : Bool) :
    set_flyer_verifiedF .failSetVerified db tid b = .error db := rfl

theorem noself_update (db : Db) (tid : Int) (f : User → User)
    (hfid : ∀ u, (f u).telegram_id = u.telegram_id)
    (hfrb : ∀ u, (f u).referred_by = u.referred_by)
    (h : NoSelfReferral db) : NoSelfReferral (update_user db tid f) := by
  intro v hv
  obtain ⟨u, hu, hval⟩ := mem_update_user db tid f v hv
  by_cases hid : (u.telegram_id == tid) = true
  · rw [hval, if_pos hid, hfrb, hfid]
    exact h u hu
  · rw [hval, if_neg hid]
    exact h u hu

theorem noself_assign_pres (db : Db) (tid r : Int) (hr : r ≠ tid)
    (h : NoSelfReferral db) : NoSelfReferral (assign_referrer db tid r) := by
  intro v hv
  obtain ⟨u, hu, hval⟩ := mem_update_user db tid _ v hv
  by_cases hid : (u.telegram_id == tid) = true
  · rw [hval, if_pos hid]
    by_cases hrb : u.referred_by = none
    · rw [if_pos hrb]
      intro habs
      injection habs with habs'
      exact hr (habs'.trans (beq_iff_eq.mp hid))
    · rw [if_neg hrb]
      exact h u hu
  · rw [hval, if_neg hid]
    exact h u hu

theorem noself_create_pres (db : Db) (tid b : Int) (rb : Option Int) (un : Option PStr)
    (hrb : rb ≠ some tid) (h : NoSelfReferral db) :
    NoSelfReferral (create_user db tid b rb un) := by
  intro v hv
  rcases mem_create_user db tid b rb un v hv with hv' | hv'
  · exact h v hv'
  · rw [hv']
    exact hrb

theorem noself_setverified (db : Db) (tid : Int) (b : Bool) (h : NoSelfReferral db) :
    NoSelfReferral (set_flyer_verified db tid b) :=
  noself_update db tid _ (fun _ => rfl) (fun _ => rfl) h

theorem noself_username (db : Db) (tid : Int) (un : PStr) (h : NoSelfReferral db) :
    NoSelfReferral (update_username db tid un) :=
  noself_update db tid _ (fun _ => rfl) (fun _ => rfl) h

/-- The extractor never yields the user's own id. -/
theorem extract_ne_self (event : Event) (tid r : Int)
    (h : extract_referred_by event tid = some r) : r ≠ tid := by
  cases event with
  | message textOpt chatId =>
    simp only [extract_referred_by] at h
    split at h
    · exact absurd h (by simp)
    · split at h
      case h_1 _ part1 _ _ =>
        split at h
        · exact absurd h (by simp)
        · split at h
          · exact absurd h (by simp)
          · split at h
            · exact absurd h (by simp)
            · rename_i hne
              rw [Option.some_inj] at h
              intro hrt
              apply hne
              rw [← h] at hrt
              exact beq_iff_eq.mpr hrt
      case h_2 => exact absurd h (by simp)
  | callbackQuery mcid => exact absurd h (by simp [extract_referred_by])
  | other => exact absurd h (by simp [extract_referred_by])

/-! Claim C10 -/

/-- C10: for every environment, the Settings record produced by
load_settings carries no webhook_host or webhook_port attribute, while main
reads exactly those two attribute names from the settings object to
configure the webhook server, so the attribute access cannot succeed on the
constructed record. -/
theorem c10_settings_lack_webhook_attrs :
    ∀ env : String → Option String,
      main_uvicorn_settings_attrs.all
        (fun a => !settingsHasAttr (load_settings env) a) = true := by
  intro env
  rfl

/-! Claim C8 -/

/-- The sweep's skip guard, restated over Option values. -/
theorem audit_guard_iff (u : User) :
    (pyTruthyOptInt u.referred_by && u.is_subscribed) = true ↔
      (u.referred_by ≠ none ∧ u.referred_by ≠ some 0 ∧ u.is_subscribed = true) := by
  cases h : u.referred_by with
  | none => simp [pyTruthyOptInt, h]
  | some n =>
    simp only [h, pyTruthyOptInt, Bool.and_eq_true, Bool.not_eq_true', beq_eq_false_iff_ne,
      ne_eq, reduceCtorEq, not_false_eq_true, Option.some.injEq, true_and]

/-- C8 counterexample: a record whose referredBy is the non-null referrer 0
with isSubscribed true is skipped by the sweep (Python truthiness treats the
integer 0 as false in `if not user.referred_by`), so the selection is not
"non-null referredBy and isSubscribed == true" as claimed. -/
theorem c8_counterexample :
    ((⟨1, 0, none, some 0, false, true⟩ : User).referred_by ≠ none) ∧
      ((⟨1, 0, none, some 0, false, true⟩ : User).is_subscribed = true) ∧
      audit_selected [⟨1, 0, none, some 0, false, true⟩] = [] := by
  decide

/-- C8 amended: each sweep cycle re-checks exactly the enumerated records
whose referredBy is non-null and non-zero and whose isSubscribed is true;
over the example records A, B, C only C is selected. -/
theorem c8_amended_selection :
    (∀ (db : Db) (tid : Int), tid ∈ audit_selected db ↔
      ∃ u ∈ list_all_users db, u.telegram_id = tid ∧
        u.referred_by ≠ none ∧ u.referred_by ≠ some 0 ∧ u.is_subscribed = true) ∧
    audit_selected [⟨1, 0, none, none, false, true⟩,
      ⟨2, 0, none, some 5, false, false⟩,
      ⟨3, 0, none, some 9, false, true⟩] = [3] := by
  refine ⟨fun db tid => ?_, by decide⟩
  unfold audit_selected list_all_users
  rw [List.mem_map]
  constructor
  · rintro ⟨u, hu, hid⟩
    rw [List.mem_filter] at hu
    exact ⟨u, hu.1, hid, (audit_guard_iff u).mp hu.2⟩
  · rintro ⟨u, hu, hid, h1, h2, h3⟩
    exact ⟨u, List.mem_filter.mpr ⟨hu, (audit_guard_iff u).mpr ⟨h1, h2, h3⟩⟩, hid⟩

/-! Claim C1 -/

theorem except_bind_ok {ε α β : Type} (a : α) (k : α → Except ε β) :
    (Except.ok a >>= k : Except ε β) = k a := rfl

/-- Effect of the conditional username write: only the username field of
the addressed record can change. -/
theorem write_username_spec (fault : DbFault) (hf : fault ≠ .failUpdateUsername)
    (uid : Int) (un : Option PStr) (rec recD : User) (db : Db)
    (hrecD : get_user db uid = some recD) :
    ∃ db', write_username_if_fresh fault uid un rec db = .ok db' ∧
      (∀ t, t ≠ uid → get_user db' t = get_user db t) ∧
      (NoSelfReferral db → NoSelfReferral db') ∧
      ∃ rec', get_user db' uid = some rec' ∧
        rec'.telegram_id = recD.telegram_id ∧ rec'.balance = recD.balance ∧
        rec'.flyer_verified = recD.flyer_verified ∧
        rec'.is_subscribed = recD.is_subscribed ∧
        rec'.referred_by = recD.referred_by := by
  cases un with
  | none => exact ⟨db, rfl, fun t _ => rfl, fun hs => hs, recD, hrecD, rfl, rfl, rfl, rfl, rfl⟩
  | some x =>
    by_cases hx : (some x : Option PStr) ≠ rec.username
    · refine ⟨update_username db uid x, ?_,
        fun t ht => get_user_username_ne db uid x t ht,
        noself_username db uid x,
        { recD with username := some x }, get_user_username_eq db uid x recD hrecD,
        rfl, rfl, rfl, rfl, rfl⟩
      simp only [write_username_if_fresh]
      rw [if_pos hx]
      exact update_usernameF_ok fault hf db uid x
    · refine ⟨db, ?_, fun t _ => rfl, fun hs => hs, recD, hrecD, rfl, rfl, rfl, rfl, rfl⟩
      simp only [write_username_if_fresh]
      rw [if_neg hx]

/-- Effect of the conditional referrer write: only the referred_by field of
the addressed record can change, and only from none to a non-self
candidate. The guard checks the record read at step start (rec), while the
write lands on the current database whose record recD carries the same
referrer. -/
theorem write_referrer_spec (fault : DbFault) (hf : fault ≠ .failAssign)
    (uid : Int) (cand : Option Int) (rec recD : User) (db : Db)
    (hrecD : get_user db uid = some recD)
    (hsame : recD.referred_by = rec.referred_by) :
    ∃ db', write_referrer_if_unset fault uid cand rec db = .ok db' ∧
      (∀ t, t ≠ uid → get_user db' t = get_user db t) ∧
      (NoSelfReferral db → NoSelfReferral db') ∧
      ∃ rec', get_user db' uid = some rec' ∧
        rec'.telegram_id = recD.telegram_id ∧ rec'.balance = recD.balance ∧
        rec'.flyer_verified = recD.flyer_verified ∧
        rec'.is_subscribed = recD.is_subscribed ∧
        rec'.username = recD.username ∧
        (rec.referred_by ≠ none → rec'.referred_by = recD.referred_by) ∧
        (∀ r, rec.referred_by = none → cand = some r → r ≠ uid →
          rec'.referred_by = some r) := by
  cases cand with
  | none =>
    exact ⟨db, rfl, fun t _ => rfl, fun hs => hs, recD, hrecD, rfl, rfl, rfl, rfl, rfl,
      fun _ => rfl, fun r _ hc => by cases hc⟩
  | some r =>
    by_cases hcond : r ≠ uid ∧ rec.referred_by = none
    · refine ⟨assign_referrer db uid r, ?_,
        fun t ht => get_user_assign_ne db uid r t ht,
        noself_assign_pres db uid r hcond.1, ?_⟩
      · simp only [write_referrer_if_unset]
        rw [if_pos hcond]
        exact assign_referrerF_ok fault hf db uid r
      · rw [get_user_assign_eq db uid r recD hrecD, if_pos (hsame.trans hcond.2)]
        exact ⟨_, rfl, rfl, rfl, rfl, rfl, rfl, fun hne => absurd hcond.2 hne,
          fun r' _ hc _ => by cases hc; rfl⟩
    · refine ⟨db, ?_, fun t _ => rfl, fun hs => hs, recD, hrecD, rfl, rfl, rfl, rfl, rfl,
        fun _ => rfl,
        fun r' hnone hc hr't => by cases hc; exact absurd ⟨hr't, hnone⟩ hcond⟩
      simp only [write_referrer_if_unset]
      rw [if_neg hcond]

/-- Effect of _remember_user_context on an existing record, fault-free: the
candidate username and candidate referrer are persisted (the referrer only
from none and never as a self-referral), everything else is untouched. -/
theorem remember_existing_spec (tid : Int) (un : Option PStr) (cand : Option Int)
    (rec : User) (db : Db) (hrec : get_user db tid = some rec) :
    ∃ db', remember_user_context .noFault tid un cand (some rec) db = .ok db' ∧
      (∀ t, t ≠ tid → get_user db' t = get_user db t) ∧
      (NoSelfReferral db → NoSelfReferral db') ∧
      ∃ rec', get_user db' tid = some rec' ∧
        rec'.telegram_id = rec.telegram_id ∧ rec'.balance = rec.balance ∧
        rec'.flyer_verified = rec.flyer_verified ∧
        rec'.is_subscribed = rec.is_subscribed ∧
        (rec.referred_by ≠ none → rec'.referred_by = rec.referred_by) ∧
        (∀ r, rec.referred_by = none → cand = some r → r ≠ tid →
          rec'.referred_by = some r) := by
  obtain ⟨db1, heq1, hne1, hns1, rec1, hget1, e1, e2, e3, e4, e5⟩ :=
    write_username_spec .noFault (by decide) tid un rec rec db hrec
  obtain ⟨db2, heq2, hne2, hns2, rec2, hget2, f1, f2, f3, f4, _f5, f6, f7⟩ :=
    write_referrer_spec .noFault (by decide) tid cand rec rec1 db1 hget1 e5
  refine ⟨db2, ?_, fun t ht => (hne2 t ht).trans (hne1 t ht),
    fun hs => hns2 (hns1 hs), rec2, hget2,
    f1.trans e1, f2.trans e2, f3.trans e3, f4.trans e4,
    fun hne => (f6 hne).trans e5, f7⟩
  simp only [remember_user_context, heq1]
  exact heq2

/-- Effect of the gate success-path writes when none of the involved writes
faults: the record is created or updated with the candidates; balance,
verification and subscription flags are untouched; the referrer moves only
from none to a non-self candidate. -/
theorem gate_success_writes_spec (fault : DbFault) (hf1 : fault ≠ .failCreate)
    (hf2 : fault ≠ .failAssign) (hf3 : fault ≠ .failUpdateUsername)
    (uid : Int) (un : Option PStr) (cand : Option Int) (db : Db) :
    ∃ db', gate_success_writes fault uid un cand (get_user db uid) db = .ok db' ∧
      (∀ t, t ≠ uid → get_user db' t = get_user db t) ∧
      (cand ≠ some uid → NoSelfReferral db → NoSelfReferral db') ∧
      (get_user db uid = none →
        get_user db' uid = some ⟨uid, 0, un, cand, false, false⟩) ∧
      (∀ rec, get_user db uid = some rec →
        ∃ rec', get_user db' uid = some rec' ∧
          rec'.telegram_id = rec.telegram_id ∧ rec'.balance = rec.balance ∧
          rec'.flyer_verified = rec.flyer_verified ∧
          rec'.is_subscribed = rec.is_subscribed ∧
          (rec.referred_by ≠ none → rec'.referred_by = rec.referred_by) ∧
          (∀ r, rec.referred_by = none → cand = some r → r ≠ uid →
            rec'.referred_by = some r)) := by
  cases hrec : get_user db uid with
  | none =>
    refine ⟨create_user db uid 0 cand un, ?_, ?_, ?_, ?_, ?_⟩
    · simp only [gate_success_writes]
      exact create_userF_ok fault hf1 db uid 0 cand un
    · exact fun t ht => get_user_create_ne db uid 0 cand un t ht
    · exact fun hcand hs => noself_create_pres db uid 0 cand un hcand hs
    · exact fun _ => get_user_create_absent db uid 0 cand un hrec
    · intro rec hr
      cases hr
  | some rec =>
    obtain ⟨dbA, heqA, hneA, hnsA, recA, a1, a2, a3, a4, a5, a6, a7, a8⟩ :=
      write_referrer_spec fault hf2 uid cand rec rec db hrec rfl
    obtain ⟨db2, heqB, hneB, hnsB, rec2, b1, b2, b3, b4, b5, b6⟩ :=
      write_username_spec fault hf3 uid un rec recA dbA a1
    refine ⟨db2, ?_, fun t ht => (hneB t ht).trans (hneA t ht),
      fun _ hs => hnsB (hnsA hs), ?_, ?_⟩
    · simp only [gate_success_writes, heqA]
      exact heqB
    · intro habs
      cases habs
    · intro rec0 hr0
      injection hr0 with h'
      subst h'
      exact ⟨rec2, b1, b2.trans a2, b3.trans a3, b4.trans a4, b5.trans a5,
        fun hne => b6.trans (a7 hne),
        fun r hnone hcand hruid => b6.trans (a8 r hnone hcand hruid)⟩

/-- C1 counterexample: new user 42 arrives with "/start ref7" and the
verification check answers allowed == false; the gate denies, yet the
record is created immediately with referredBy = 7 — not with
referredBy = null as the claim requires before a successful check. -/
theorem c1_counterexample :
    flyer_gate .noFault (.message (some "/start ref7".toList) 42)
        ⟨some ⟨42, none⟩, true, true⟩ (.ok false) [] =
      .ok ⟨[⟨42, 0, none, some 7, false, false⟩], false, true, []⟩ ∧
    referrer_of [⟨42, 0, none, some 7, false, false⟩] 42 = some 7 := by
  constructor
  · rfl
  · rfl

/-- C1 amended: on a checker answer allowed == false the gate denies the
interaction (no handler call, only the callback acknowledgment) and the
only state change is persisting the candidate username and candidate
referrer: other records are untouched; an absent record is created at once
with the candidate referrer and username as initial values; an existing
record keeps its id, balance, verification and subscription flags, and its
referrer changes only from none to the non-self candidate.  The referrer is
therefore persisted at the denial, not deferred until a verification check
for the user succeeds. -/
theorem c1_denial_persists_context (event : Event) (ctx : GateCtx) (db : Db)
    (u : GateUser) (hu : ctx.user = some u)
    (hnv : record_is_verified (get_user db u.id) = false) :
    ∃ db', flyer_gate .noFault event ctx (.ok false) db =
        .ok ⟨db', false, true, notify_verification_required event⟩ ∧
      (∀ t, t ≠ u.id → get_user db' t = get_user db t) ∧
      (get_user db u.id = none →
        get_user db' u.id =
          some ⟨u.id, 0, u.username, extract_referred_by event u.id, false, false⟩) ∧
      (∀ rec, get_user db u.id = some rec →
        ∃ rec', get_user db' u.id = some rec' ∧
          rec'.telegram_id = rec.telegram_id ∧ rec'.balance = rec.balance ∧
          rec'.flyer_verified = rec.flyer_verified ∧
          rec'.is_subscribed = rec.is_subscribed ∧
          (rec.referred_by ≠ none → rec'.referred_by = rec.referred_by) ∧
          (∀ r, rec.referred_by = none → extract_referred_by event u.id = some r →
            rec'.referred_by = some r)) := by
  cases hrec : get_user db u.id with
  | none =>
    refine ⟨create_user db u.id 0 (extract_referred_by event u.id) u.username,
      ?_, ?_, ?_, ?_⟩
    · simp only [flyer_gate, hu, hrec, record_is_verified, Bool.false_eq_true, if_false,
        remember_user_context, create_userF_noFault]
    · exact fun t ht => get_user_create_ne db u.id 0 _ _ t ht
    · exact fun _ => get_user_create_absent db u.id 0 _ _ hrec
    · intro rec hr
      cases hr
  | some rec =>
    have hrecv : rec.flyer_verified = false := by
      rw [hrec] at hnv
      simpa [record_is_verified] using hnv
    obtain ⟨db', heq, hne, _hns, rec', hget, h1, h2, h3, h4, h5, h6⟩ :=
      remember_existing_spec u.id u.username (extract_referred_by event u.id) rec db hrec
    refine ⟨db', ?_, ?_, ?_, ?_⟩
    · simp only [flyer_gate, hu, hrec, record_is_verified, hrecv, Bool.false_eq_true,
        if_false, heq]
    · exact hne
    · intro habs
      cases habs
    · intro rec0 hr0
      injection hr0 with h'
      subst h'
      exact ⟨rec', hget, h1, h2, h3, h4, h5,
        fun r hnone hcand => h6 r hnone hcand (extract_ne_self event u.id r hcand)⟩

/-- Witness for C1 amended: an existing unverified record with no referrer
gets the candidate referrer persisted at a denial. -/
theorem c1_denial_persists_context_witness :
    ∃ db', flyer_gate .noFault (.message (some "/start ref7".toList) 42)
        ⟨some ⟨42, some "al".toList⟩, true, true⟩ (.ok false)
        [⟨42, 5, some "al".toList, none, false, false⟩] =
        .ok ⟨db', false, true,
          notify_verification_required (.message (some "/start ref7".toList) 42)⟩ ∧
      (∀ t, t ≠ (42 : Int) →
        get_user db' t = get_user [⟨42, 5, some "al".toList, none, false, false⟩] t) ∧
      (get_user [⟨42, 5, some "al".toList, none, false, false⟩] (42 : Int) = none →
        get_user db' 42 = some ⟨42, 0, some "al".toList, some 7, false, false⟩) ∧
      (∀ rec, get_user [⟨42, 5, some "al".toList, none, false, false⟩] (42 : Int) = some rec →
        ∃ rec', get_user db' 42 = some rec' ∧
          rec'.telegram_id = rec.telegram_id ∧ rec'.balance = rec.balance ∧
          rec'.flyer_verified = rec.flyer_verified ∧
          rec'.is_subscribed = rec.is_subscribed ∧
          (rec.referred_by ≠ none → rec'.referred_by = rec.referred_by) ∧
          (∀ r, rec.referred_by = none →
            extract_referred_by (.message (some "/start ref7".toList) 42) 42 = some r →
            rec'.referred_by = some r)) := by
  have h := c1_denial_persists_context (.message (some "/start ref7".toList) 42)
    ⟨some ⟨42, some "al".toList⟩, true, true⟩
    [⟨42, 5, some "al".toList, none, false, false⟩] ⟨42, some "al".toList⟩
    rfl (by decide)
  simpa using h

/-! Claim C4 -/

/-- C4: when the checker call raises (APIError, any other exception, or a
timeout — both except branches behave identically), the gate invokes the
downstream handler on the unchanged database, logs the failure, and
mutates no user record, whatever the repository fault state. -/
theorem c4_checker_failure_fails_open (fault : DbFault) (event : Event)
    (ctx : GateCtx) (db : Db) (u : GateUser) (hu : ctx.user = some u)
    (hnv : record_is_verified (get_user db u.id) = false) :
    flyer_gate fault event ctx .error db = .ok ⟨db, true, true, [.logCheckError]⟩ := by
  unfold flyer_gate
  rw [hu]
  simp [hnv]

/-- Witness for C4: a concrete unverified user whose check raises is passed
through with no database change. -/
theorem c4_checker_failure_fails_open_witness :
    flyer_gate .noFault (.message (some "hi".toList) 7) ⟨some ⟨42, none⟩, true, true⟩ .error
        [⟨42, 0, none, none, false, false⟩] =
      .ok ⟨[⟨42, 0, none, none, false, false⟩], true, true, [.logCheckError]⟩ :=
  c4_checker_failure_fails_open .noFault (.message (some "hi".toList) 7)
    ⟨some ⟨42, none⟩, true, true⟩ [⟨42, 0, none, none, false, false⟩] ⟨42, none⟩
    rfl (by decide)

/-! Claim C9 -/

/-- C9 counterexample: an existing unverified user is admitted by the
check, but the set-verified repository write raises; the exception
propagates out of the middleware (the Except.error result), so the
downstream handler is not invoked — the already-computed admit decision is
not preserved as the claim requires, and the gate logs nothing. -/
theorem c9_counterexample :
    flyer_gate .failSetVerified (.message (some "hi".toList) 7)
        ⟨some ⟨42, none⟩, true, true⟩ (.ok true) [⟨42, 0, none, none, false, false⟩] =
      .error [⟨42, 0, none, none, false, false⟩] := by
  rfl

/-- C9 amended: when the set-verified repository write fails after the gate
has computed an admitting check outcome, the exception propagates: the
downstream handler is not invoked and the welcome trigger is skipped (an
error result carries no handler call and no effects), and at the raise the
user's record still shows the pre-write unverified flag. -/
theorem c9_write_failure_propagates (event : Event) (ctx : GateCtx) (db : Db)
    (u : GateUser) (hu : ctx.user = some u)
    (hnv : record_is_verified (get_user db u.id) = false) :
    ∃ db', flyer_gate .failSetVerified event ctx (.ok true) db = .error db' ∧
      record_is_verified (get_user db' u.id) = false := by
  obtain ⟨db1, heq1, hne1, _hns1, hcr, hup⟩ :=
    gate_success_writes_spec .failSetVerified (by decide) (by decide) (by decide)
      u.id u.username (extract_referred_by event u.id) db
  refine ⟨db1, ?_, ?_⟩
  · simp only [flyer_gate, hu, hnv, Bool.false_eq_true, if_false, heq1,
      set_flyer_verifiedF_fail]
  · cases hrec : get_user db u.id with
    | none =>
      rw [hcr hrec]
      rfl
    | some rec =>
      obtain ⟨rec', hget', _, _, h3, _, _, _⟩ := hup rec hrec
      rw [hget']
      simp only [record_is_verified]
      rw [h3]
      rw [hrec] at hnv
      simpa [record_is_verified] using hnv

/-- Witness for C9 amended at a concrete unverified record. -/
theorem c9_write_failure_propagates_witness :
    ∃ db', flyer_gate .failSetVerified (.message (some "hello".toList) 7)
        ⟨some ⟨43, none⟩, true, true⟩ (.ok true) [⟨43, 0, none, none, false, false⟩] =
        .error db' ∧
      record_is_verified (get_user db' 43) = false :=
  c9_write_failure_propagates (.message (some "hello".toList) 7)
    ⟨some ⟨43, none⟩, true, true⟩ [⟨43, 0, none, none, false, false⟩] ⟨43, none⟩
    rfl (by decide)


/-! Claim C6 -/

/-- The webhook's record-ensure never raises when the repository is
fault-free. -/
theorem ensure_user_record_noFault_ok (tid : Int) (un : Option PStr) (db : Db) :
    ∃ p, ensure_user_record .noFault tid un db = .ok p := by
  unfold ensure_user_record
  cases hrec : get_user db tid with
  | none =>
    refine ⟨(create_user db tid 0 none un, get_user (create_user db tid 0 none un) tid), ?_⟩
    simp only [create_userF_noFault]
  | some u =>
    cases un with
    | none => exact ⟨(db, some u), rfl⟩
    | some x =>
      by_cases hx : x ≠ [] ∧ u.username ≠ some x
      · refine ⟨(update_username db tid x, some { u with username := some x }), ?_⟩
        dsimp only
        rw [if_pos hx]
        simp only [update_usernameF_noFault]
      · refine ⟨(db, some u), ?_⟩
        dsimp only
        rw [if_neg hx]

/-- C6 counterexample: a well-formed sub_completed event for user 9, with a
repository whose set-verified write fails, makes the endpoint raise (the
uncaught exception yields the framework's error response), not the fixed
success acknowledgment the claim promises for any downstream failure. -/
theorem c6_counterexample :
    flyer_webhook .failSetVerified (some (subPayload 9)) [] =
      .error [⟨9, 0, none, none, false, false⟩] := by
  rfl

/-- C6 amended: the endpoint returns the fixed success acknowledgment for
every request whose body is unparseable JSON or parses to a JSON object,
as long as the synchronous repository writes succeed — covering malformed
JSON, missing user identifier, unknown event types, and failures confined
to the fire-and-forget reactions; only a synchronous repository failure
while handling a recognized event (or a parseable non-object body) escapes
as an error response. -/
theorem c6_acknowledges_success (body : Option PyVal) (db : Db)
    (h : body = none ∨ ∃ fields, body = some (.dict fields)) :
    (flyer_webhook .noFault body db).isOk = true := by
  rcases h with rfl | ⟨fields, rfl⟩
  · rfl
  · simp only [flyer_webhook]
    cases hb1 : pyEqStr (pyDictGet fields "type") "test" with
    | true => rfl
    | false =>
      cases hx : extract_telegram_id (PyVal.dict fields) with
      | none => rfl
      | some tid =>
        cases hb2 : pyEqStr (pyDictGet fields "type") "sub_completed" with
        | true =>
          obtain ⟨⟨db1, user⟩, hp⟩ :=
            ensure_user_record_noFault_ok tid (extract_username (PyVal.dict fields)) db
          simp only [hp, set_flyer_verifiedF_noFault]
          rfl
        | false =>
          cases hb3 : pyEqStr (pyDictGet fields "type") "new_status" with
          | true =>
            cases hb4 : pyEqStr (extract_first (PyVal.dict fields) [["data", "status"]])
                "abort" with
            | true =>
              simp only [set_flyer_verifiedF_noFault]
              obtain ⟨⟨db2, user⟩, hp⟩ :=
                ensure_user_record_noFault_ok tid (extract_username (PyVal.dict fields))
                  (set_flyer_verified db tid false)
              simp only [hp]
              cases user <;> rfl
            | false => rfl
          | false => rfl

/-- Witness for C6 amended: a concrete sub_completed payload is
acknowledged with success on a fault-free repository. -/
theorem c6_acknowledges_success_witness :
    (flyer_webhook .noFault (some (subPayload 9)) []).isOk = true :=
  c6_acknowledges_success (some (subPayload 9)) [] (Or.inr ⟨_, rfl⟩)

/-! Claim C5 -/

/-- C5 counterexample: a message arriving 0.2s after the same user's
previous one (rate limit 0.5s) is dropped by the throttle, yet the
verification check has already been invoked and the verification state
transition (record created and marked verified) has already been applied —
the gate runs before the throttle, not after it as the claim requires. -/
theorem c5_counterexample :
    (message_pipeline (.message (some "hi".toList) 7) ⟨some ⟨42, none⟩, true, true⟩
        (.ok true) [] [(42, 10)] (51 / 5)).businessHandlerRan = false ∧
    (message_pipeline (.message (some "hi".toList) 7) ⟨some ⟨42, none⟩, true, true⟩
        (.ok true) [] [(42, 10)] (51 / 5)).checkInvoked = true ∧
    record_is_verified
      (get_user (message_pipeline (.message (some "hi".toList) 7)
        ⟨some ⟨42, none⟩, true, true⟩ (.ok true) [] [(42, 10)] (51 / 5)).db 42) = true := by
  have hg : flyer_gate .noFault (.message (some "hi".toList) 7)
      ⟨some ⟨42, none⟩, true, true⟩ (.ok true) [] =
      .ok ⟨[⟨42, 0, none, none, true, false⟩], true, true, [.welcome 42 (some 7)]⟩ := rfl
  have ht : throttling_step (1 / 2) (some 42) (51 / 5) [(42, 10)] = ([(42, 10)], false) := by
    have h10 : tsGet [(42, 10)] 42 = (10 : ℚ) := rfl
    unfold throttling_step
    dsimp only
    rw [h10, if_pos (by norm_num : (51 / 5 : ℚ) - 10 < 1 / 2)]
  refine ⟨?_, ?_, ?_⟩
  · simp only [message_pipeline, hg]
    dsimp only [Option.map]
    rw [ht]
    simp
  · simp only [message_pipeline, hg]
    dsimp only [Option.map]
    rw [ht]
    simp
  · simp only [message_pipeline, hg]
    dsimp only [Option.map]
    rw [ht]
    simp
    rfl

/-- C5 amended: on the message path the verification gate runs before the
throttle (main.py registers FlyerCheckMiddleware first, hence outermost):
the database outcome, check invocation and effects equal those of the gate
alone regardless of throttle state; the business handlers run exactly when
the gate passes the event on and the throttle then admits it; and the
throttle table is consulted or updated only when the gate passes the event
on. -/
theorem c5_gate_runs_before_throttle (event : Event) (ctx : GateCtx) (chk : CheckResult)
    (db : Db) (ts : Timestamps) (now : ℚ) (g : GateResult)
    (hg : flyer_gate .noFault event ctx chk db = .ok g) :
    (message_pipeline event ctx chk db ts now).db = g.db ∧
    (message_pipeline event ctx chk db ts now).checkInvoked = g.checkInvoked ∧
    (message_pipeline event ctx chk db ts now).effects = g.effects ∧
    (message_pipeline event ctx chk db ts now).businessHandlerRan =
      (g.handlerCalled &&
        (throttling_step (1 / 2) (ctx.user.map (fun u => u.id)) now ts).2) ∧
    (message_pipeline event ctx chk db ts now).timestamps =
      (if g.handlerCalled then
        (throttling_step (1 / 2) (ctx.user.map (fun u => u.id)) now ts).1
      else ts) := by
  simp only [message_pipeline, hg]
  cases hh : g.handlerCalled with
  | false => simp [hh]
  | true => simp [hh]

/-- Witness for C5 amended at a concrete admitted interaction. -/
theorem c5_gate_runs_before_throttle_witness :
    flyer_gate .noFault (.message (some "hey".toList) 8) ⟨some ⟨44, none⟩, true, true⟩
        (.ok true) [] =
      .ok ⟨[⟨44, 0, none, none, true, false⟩], true, true, [.welcome 44 (some 8)]⟩ ∧
    (message_pipeline (.message (some "hey".toList) 8) ⟨some ⟨44, none⟩, true, true⟩
        (.ok true) [] [] 100).db = [⟨44, 0, none, none, true, false⟩] :=
  ⟨rfl, (c5_gate_runs_before_throttle (.message (some "hey".toList) 8)
    ⟨some ⟨44, none⟩, true, true⟩ (.ok true) [] [] 100
    ⟨[⟨44, 0, none, none, true, false⟩], true, true, [.welcome 44 (some 8)]⟩ rfl).1⟩

/-! Step characterization shared by the welcome-trigger and referrer claims -/

theorem extract_not_self (event : Event) (tid : Int) :
    extract_referred_by event tid ≠ some tid :=
  fun hc => extract_ne_self event tid tid hc rfl

theorem finish_trigger_welcome (chatId : Option Int) (ctx : GateCtx) (uid : Int)
    (chat : Option Int) (h : Effect.welcome uid chat ∈ finish_trigger chatId ctx) :
    ∃ u cid, ctx.user = some u ∧ chatId = some cid ∧ uid = u.id := by
  unfold finish_trigger at h
  cases hc : chatId with
  | none =>
    cases hu : ctx.user with
    | none => simp only [hc, hu] at h; simp at h
    | some u => simp only [hc, hu] at h; simp at h
  | some cid =>
    cases hu : ctx.user with
    | none => simp only [hc, hu] at h; simp at h
    | some u =>
      simp only [hc, hu] at h
      cases hbs : ctx.hasSettings with
      | false => simp [hbs] at h
      | true =>
        simp [hbs] at h
        exact ⟨u, cid, rfl, rfl, h.1⟩

theorem trigger_start_welcome (event : Event) (ctx : GateCtx) (uid : Int)
    (chat : Option Int) (h : Effect.welcome uid chat ∈ trigger_start event ctx) :
    msg_is_start event = false ∧ gate_chat_id event ≠ none ∧
      ∃ u, ctx.user = some u ∧ uid = u.id := by
  unfold trigger_start at h
  cases hb : ctx.hasBot with
  | false => rw [hb] at h; simp at h
  | true =>
    rw [hb] at h
    simp only [Bool.not_true, Bool.false_eq_true, if_false] at h
    cases event with
    | message textOpt chatId =>
      dsimp only at h
      cases hs : startsWithL "/start".toList (textOpt.getD []) with
      | true =>
        rw [hs] at h
        simp at h
      | false =>
        rw [hs] at h
        simp only [Bool.false_eq_true, if_false] at h
        obtain ⟨u, cid, hu, _, huid⟩ := finish_trigger_welcome _ _ _ _ h
        exact ⟨by simpa [msg_is_start] using hs, by simp [gate_chat_id], u, hu, huid⟩
    | callbackQuery mcid =>
      cases mcid with
      | some c =>
        obtain ⟨u, cid, hu, _, huid⟩ := finish_trigger_welcome _ _ _ _ h
        exact ⟨rfl, by simp [gate_chat_id], u, hu, huid⟩
      | none =>
        obtain ⟨u, cid, _, hcid, _⟩ := finish_trigger_welcome _ _ _ _ h
        cases hcid
    | other =>
      obtain ⟨u, cid, _, hcid, _⟩ := finish_trigger_welcome _ _ _ _ h
      cases hcid

/-- Full characterization of one fault-free gate pass, as used by the
welcome-trigger and referrer invariants: the gate never raises, an assigned
referrer is never lost and never self-referential, and a welcome effect is
emitted only for the triggering user on a false-to-true verification
transition, never on a /start message, and never without a chat target. -/
theorem flyer_gate_noFault_spec (event : Event) (ctx : GateCtx) (chk : CheckResult)
    (db : Db) :
    ∃ g, flyer_gate .noFault event ctx chk db = .ok g ∧
      (∀ t r0, referrer_of db t = some r0 → referrer_of g.db t = some r0) ∧
      (NoSelfReferral db → NoSelfReferral g.db) ∧
      (∀ uid chat, Effect.welcome uid chat ∈ g.effects →
        record_is_verified (get_user db uid) = false ∧
        record_is_verified (get_user g.db uid) = true ∧
        msg_is_start event = false ∧ gate_chat_id event ≠ none ∧ ctx.user ≠ none) := by
  cases hu : ctx.user with
  | none =>
    refine ⟨⟨db, true, false, []⟩, ?_, fun t r0 h => h, fun hs => hs, fun uid chat hw => ?_⟩
    · simp only [flyer_gate, hu]
    · simp at hw
  | some u =>
    cases hv : record_is_verified (get_user db u.id) with
    | true =>
      refine ⟨⟨db, true, false, []⟩, ?_, fun t r0 h => h, fun hs => hs, fun uid chat hw => ?_⟩
      · simp only [flyer_gate, hu, hv, if_true]
      · simp at hw
    | false =>
      cases chk with
      | error =>
        refine ⟨⟨db, true, true, [.logCheckError]⟩, ?_, fun t r0 h => h, fun hs => hs,
          fun uid chat hw => ?_⟩
        · simp only [flyer_gate, hu, hv, Bool.false_eq_true, if_false]
        · simp at hw
      | ok allowed =>
        cases allowed with
        | false =>
          cases hrec : get_user db u.id with
          | none =>
            refine ⟨⟨create_user db u.id 0 (extract_referred_by event u.id) u.username,
                false, true, notify_verification_required event⟩, ?_, ?_, ?_,
              fun uid chat hw => ?_⟩
            · simp only [flyer_gate, hu, hrec, record_is_verified, Bool.false_eq_true,
                if_false, remember_user_context, create_userF_noFault]
            · intro t r0 h0
              unfold referrer_of at h0 ⊢
              by_cases ht : t = u.id
              · rw [ht, hrec] at h0
                simp at h0
              · rw [get_user_create_ne db u.id 0 _ _ t ht]
                exact h0
            · exact fun hs =>
                noself_create_pres db u.id 0 _ _ (extract_not_self event u.id) hs
            · cases event <;> simp [notify_verification_required] at hw
          | some rec =>
            obtain ⟨db', heq, hne, hns, rec', hget, h1, h2, h3, h4, h5, h6⟩ :=
              remember_existing_spec u.id u.username (extract_referred_by event u.id)
                rec db hrec
            have hrecv : rec.flyer_verified = false := by
              rw [hrec] at hv
              simpa [record_is_verified] using hv
            refine ⟨⟨db', false, true, notify_verification_required event⟩, ?_, ?_, hns,
              fun uid chat hw => ?_⟩
            · simp only [flyer_gate, hu, hrec, record_is_verified, hrecv,
                Bool.false_eq_true, if_false, heq]
            · intro t r0 h0
              unfold referrer_of at h0 ⊢
              by_cases ht : t = u.id
              · rw [ht, hrec] at h0
                simp only [Option.some_bind] at h0
                rw [ht, hget]
                simp only [Option.some_bind]
                rw [h5 (by rw [h0]; exact fun hc => by cases hc)]
                exact h0
              · rw [hne t ht]
                exact h0
            · cases event <;> simp [notify_verification_required] at hw
        | true =>
          obtain ⟨db1, heq1, hne1, hns1, hcr, hup⟩ :=
            gate_success_writes_spec .noFault (by decide) (by decide) (by decide)
              u.id u.username (extract_referred_by event u.id) db
          refine ⟨⟨set_flyer_verified db1 u.id true, true, true,
              trigger_start event ctx⟩, ?_, ?_, ?_, fun uid chat hw => ?_⟩
          · simp only [flyer_gate, hu, hv, Bool.false_eq_true, if_false, heq1,
              set_flyer_verifiedF_noFault, Bool.not_false, if_true]
          · intro t r0 h0
            unfold referrer_of at h0 ⊢
            by_cases ht : t = u.id
            · rw [ht] at h0 ⊢
              cases hrec : get_user db u.id with
              | none =>
                rw [hrec] at h0
                simp at h0
              | some rec =>
                rw [hrec] at h0
                simp only [Option.some_bind] at h0
                obtain ⟨rec', hget', _, _, _, _, g5, _⟩ := hup rec hrec
                rw [get_user_setverified_eq db1 u.id true rec' hget']
                simp only [Option.some_bind]
                exact (g5 (by rw [h0]; exact fun hc => by cases hc)).trans h0
            · rw [get_user_setverified_ne db1 u.id true t ht, hne1 t ht]
              exact h0
          · exact fun hs =>
              noself_setverified db1 u.id true
                (hns1 (extract_not_self event u.id) hs)
          · obtain ⟨hmsg, hchat, u', hu', huid⟩ := trigger_start_welcome event ctx uid chat hw
            rw [hu] at hu'
            injection hu' with hu''
            subst hu''
            subst huid
            refine ⟨hv, ?_, hmsg, hchat, fun hc => by cases hc⟩
            cases hrec : get_user db u.id with
            | none =>
              rw [get_user_setverified_eq db1 u.id true _ (hcr hrec)]
              rfl
            | some rec =>
              obtain ⟨rec', hget', _, _, _, _, _, _⟩ := hup rec hrec
              rw [get_user_setverified_eq db1 u.id true rec' hget']
              rfl

/-- Full characterization of the webhook's record-ensure, fault-free: the
record the caller sees is in the database, its flyer flag is the pre-call
one, and only its username may have changed. -/
theorem ensure_user_record_spec (tid : Int) (un : Option PStr) (db : Db) :
    ∃ db1 rec1, ensure_user_record .noFault tid un db = .ok (db1, some rec1) ∧
      get_user db1 tid = some rec1 ∧
      (∀ t, t ≠ tid → get_user db1 t = get_user db t) ∧
      rec1.flyer_verified = record_is_verified (get_user db tid) ∧
      (NoSelfReferral db → NoSelfReferral db1) ∧
      (∀ t r0, referrer_of db t = some r0 → referrer_of db1 t = some r0) := by
  unfold ensure_user_record
  cases hrec : get_user db tid with
  | none =>
    refine ⟨create_user db tid 0 none un, ⟨tid, 0, un, none, false, false⟩, ?_,
      get_user_create_absent db tid 0 none un hrec,
      fun t ht => get_user_create_ne db tid 0 none un t ht, rfl,
      noself_create_pres db tid 0 none un (by simp), ?_⟩
    · simp only [create_userF_noFault]
      rw [get_user_create_absent db tid 0 none un hrec]
    · intro t r0 h0
      unfold referrer_of at h0 ⊢
      by_cases ht : t = tid
      · rw [ht, hrec] at h0
        simp at h0
      · rw [get_user_create_ne db tid 0 none un t ht]
        exact h0
  | some u =>
    cases un with
    | none =>
      exact ⟨db, u, rfl, hrec, fun t _ => rfl, rfl, fun hs => hs, fun t r0 h0 => h0⟩
    | some x =>
      by_cases hx : x ≠ [] ∧ u.username ≠ some x
      · refine ⟨update_username db tid x, { u with username := some x }, ?_,
          get_user_username_eq db tid x u hrec,
          fun t ht => get_user_username_ne db tid x t ht, rfl,
          noself_username db tid x, ?_⟩
        · dsimp only
          rw [if_pos hx]
          simp only [update_usernameF_noFault]
        · intro t r0 h0
          unfold referrer_of at h0 ⊢
          by_cases ht : t = tid
          · rw [ht, hrec] at h0
            simp only [Option.some_bind] at h0
            rw [ht, get_user_username_eq db tid x u hrec]
            simp only [Option.some_bind]
            exact h0
          · rw [get_user_username_ne db tid x t ht]
            exact h0
      · refine ⟨db, u, ?_, hrec, fun t _ => rfl, rfl, fun hs => hs, fun t r0 h0 => h0⟩
        dsimp only
        rw [if_neg hx]

/-- Full characterization of one fault-free webhook delivery: either the
fixed success acknowledgment with the listed effects (an assigned referrer
is never lost and never self-referential, and a welcome effect is emitted
only on a false-to-true verification transition), or the uncaught
AttributeError of a parseable non-object body, which mutates nothing. -/
theorem flyer_webhook_noFault_spec (body : Option PyVal) (db : Db) :
    (∃ db' es, flyer_webhook .noFault body db = .ok (db', es) ∧
      (∀ t r0, referrer_of db t = some r0 → referrer_of db' t = some r0) ∧
      (NoSelfReferral db → NoSelfReferral db') ∧
      (∀ uid chat, Effect.welcome uid chat ∈ es →
        record_is_verified (get_user db uid) = false ∧
        record_is_verified (get_user db' uid) = true)) ∨
    flyer_webhook .noFault body db = .error db := by
  cases body with
  | none =>
    exact Or.inl ⟨db, [], rfl, fun t r0 h => h, fun hs => hs,
      fun uid chat hw => by simp at hw⟩
  | some payload =>
    cases payload with
    | pynone => exact Or.inr rfl
    | int n => exact Or.inr rfl
    | str s => exact Or.inr rfl
    | bool b => exact Or.inr rfl
    | list l => exact Or.inr rfl
    | dict fields =>
      refine Or.inl ?_
      simp only [flyer_webhook]
      cases hb1 : pyEqStr (pyDictGet fields "type") "test" with
      | true =>
        exact ⟨db, [], rfl, fun t r0 h => h, fun hs => hs, fun uid chat hw => by simp at hw⟩
      | false =>
        cases hx : extract_telegram_id (PyVal.dict fields) with
        | none =>
          exact ⟨db, [], rfl, fun t r0 h => h, fun hs => hs, fun uid chat hw => by simp at hw⟩
        | some tid =>
          cases hb2 : pyEqStr (pyDictGet fields "type") "sub_completed" with
          | true =>
            obtain ⟨db1, rec1, hpe, hget1, hne1, hflyer, hns1, hpres1⟩ :=
              ensure_user_record_spec tid (extract_username (PyVal.dict fields)) db
            refine ⟨set_flyer_verified db1 tid true,
              if !record_is_verified (some rec1) then
                [Effect.welcome tid (some (extract_chat_id (PyVal.dict fields) tid))]
              else [], ?_, ?_, ?_, ?_⟩
            · simp [hpe, set_flyer_verifiedF_noFault]
            · intro t r0 h0
              unfold referrer_of at h0 ⊢
              by_cases ht : t = tid
              · rw [ht] at h0 ⊢
                have h1 := hpres1 tid r0 h0
                unfold referrer_of at h1
                rw [hget1] at h1
                simp only [Option.some_bind] at h1
                rw [get_user_setverified_eq db1 tid true rec1 hget1]
                simp only [Option.some_bind]
                exact h1
              · rw [get_user_setverified_ne db1 tid true t ht]
                exact hpres1 t r0 h0
            · exact fun hs => noself_setverified db1 tid true (hns1 hs)
            · intro uid chat hw
              cases hav : record_is_verified (some rec1) with
              | true =>
                rw [hav] at hw
                simp at hw
              | false =>
                rw [hav] at hw
                simp at hw
                have huid : uid = tid := hw.1
                subst huid
                constructor
                · rw [← hflyer]
                  simpa [record_is_verified] using hav
                · rw [get_user_setverified_eq db1 uid true rec1 hget1]
                  rfl
          | false =>
            cases hb3 : pyEqStr (pyDictGet fields "type") "new_status" with
            | true =>
              cases hb4 : pyEqStr (extract_first (PyVal.dict fields) [["data", "status"]])
                  "abort" with
              | true =>
                obtain ⟨db2, rec2, hpe, hget2, hne2, hflyer2, hns2, hpres2⟩ :=
                  ensure_user_record_spec tid (extract_username (PyVal.dict fields))
                    (set_flyer_verified db tid false)
                refine ⟨db2,
                  [Effect.unsubReaction tid,
                   Effect.resubscribePrompt (extract_chat_id (PyVal.dict fields) tid)],
                  ?_, ?_, ?_, fun uid chat hw => by simp at hw⟩
                · simp [set_flyer_verifiedF_noFault, hpe]
                · intro t r0 h0
                  refine hpres2 t r0 ?_
                  unfold referrer_of at h0 ⊢
                  by_cases ht : t = tid
                  · rw [ht] at h0 ⊢
                    cases hrec : get_user db tid with
                    | none =>
                      rw [hrec] at h0
                      simp at h0
                    | some rec =>
                      rw [hrec] at h0
                      simp only [Option.some_bind] at h0
                      rw [get_user_setverified_eq db tid false rec hrec]
                      simp only [Option.some_bind]
                      exact h0
                  · rw [get_user_setverified_ne db tid false t ht]
                    exact h0
                · exact fun hs => hns2 (noself_setverified db tid false hs)
              | false =>
                exact ⟨db, [], rfl, fun t r0 h => h, fun hs => hs,
                  fun uid chat hw => by simp at hw⟩
            | false =>
              exact ⟨db, [], rfl, fun t r0 h => h, fun hs => hs,
                fun uid chat hw => by simp at hw⟩

theorem referrer_of_setverified (db : Db) (tid : Int) (b : Bool) (t : Int) :
    referrer_of (set_flyer_verified db tid b) t = referrer_of db t := by
  unfold referrer_of set_flyer_verified
  rw [get_user_update db tid (fun u => { u with flyer_verified := b }) (fun _ => rfl) t]
  cases get_user db t with
  | none => rfl
  | some v =>
    simp only [Option.map_some', Option.some_bind]
    split <;> rfl

theorem verified_monotone_setverified_true (db : Db) (tid t : Int)
    (h : record_is_verified (get_user db t) = true) :
    record_is_verified (get_user (set_flyer_verified db tid true) t) = true := by
  unfold set_flyer_verified
  rw [get_user_update db tid (fun u => { u with flyer_verified := true }) (fun _ => rfl) t]
  cases hg : get_user db t with
  | none =>
    rw [hg] at h
    simp [record_is_verified] at h
  | some v =>
    rw [hg] at h
    simp only [record_is_verified] at h
    simp only [Option.map_some', record_is_verified]
    split
    · rfl
    · exact h

theorem verified_monotone_create (db : Db) (tid b : Int) (rb : Option Int)
    (un : Option PStr) (t : Int) (h : record_is_verified (get_user db t) = true) :
    record_is_verified (get_user (create_user db tid b rb un) t) = true := by
  unfold create_user
  rw [get_user_append_single]
  cases hg : get_user db t with
  | none =>
    rw [hg] at h
    simp [record_is_verified] at h
  | some v =>
    rw [hg] at h
    exact h

theorem referrer_of_create_pres (db : Db) (tid b : Int) (rb : Option Int)
    (un : Option PStr) (t r0 : Int) (h : referrer_of db t = some r0) :
    referrer_of (create_user db tid b rb un) t = some r0 := by
  unfold referrer_of at h ⊢
  cases hg : get_user db t with
  | none =>
    rw [hg] at h
    simp at h
  | some v =>
    unfold create_user
    rw [get_user_append_single, hg]
    rw [hg] at h
    exact h

/-- Full characterization of one spec-modelled reconciler re-check: an
assigned referrer is never lost and never self-referential, a verified
record stays verified, and a welcome effect is emitted only for the checked
user on a false-to-true verification transition. -/
theorem verify_and_activate_spec (chk : CheckResult) (tid : Int) (db : Db) :
    (∀ t r0, referrer_of db t = some r0 →
      referrer_of (verify_and_activate chk tid db).1 t = some r0) ∧
    (NoSelfReferral db → NoSelfReferral (verify_and_activate chk tid db).1) ∧
    (∀ t, record_is_verified (get_user db t) = true →
      record_is_verified (get_user (verify_and_activate chk tid db).1 t) = true) ∧
    (∀ uid chat, Effect.welcome uid chat ∈ (verify_and_activate chk tid db).2 →
      record_is_verified (get_user db uid) = false ∧
      record_is_verified (get_user (verify_and_activate chk tid db).1 uid) = true) := by
  cases hrec : get_user db tid with
  | some u =>
    cases huf : u.flyer_verified with
    | true =>
      have hva : verify_and_activate chk tid db = (db, []) := by
        simp only [verify_and_activate, hrec, huf, if_true]
      rw [hva]
      exact ⟨fun t r0 h => h, fun hs => hs, fun t h => h, fun uid chat hw => by simp at hw⟩
    | false =>
      cases chk with
      | error =>
        have hva : verify_and_activate .error tid db = (db, []) := by
          simp only [verify_and_activate, hrec, huf, Bool.false_eq_true, if_false]
        rw [hva]
        exact ⟨fun t r0 h => h, fun hs => hs, fun t h => h, fun uid chat hw => by simp at hw⟩
      | ok allowed =>
        cases allowed with
        | false =>
          have hva : verify_and_activate (.ok false) tid db = (db, []) := by
            simp only [verify_and_activate, hrec, huf, Bool.false_eq_true, if_false]
          rw [hva]
          exact ⟨fun t r0 h => h, fun hs => hs, fun t h => h, fun uid chat hw => by simp at hw⟩
        | true =>
          have hva : verify_and_activate (.ok true) tid db =
              (set_flyer_verified db tid true, [.welcome tid none]) := by
            simp only [verify_and_activate, hrec, huf, Bool.false_eq_true, if_false]
          rw [hva]
          refine ⟨fun t r0 h => by rw [referrer_of_setverified]; exact h,
            fun hs => noself_setverified db tid true hs,
            fun t h => verified_monotone_setverified_true db tid t h,
            fun uid chat hw => ?_⟩
          simp at hw
          obtain ⟨h1, _⟩ := hw
          subst h1
          constructor
          · rw [hrec]
            simpa [record_is_verified] using huf
          · rw [get_user_setverified_eq db uid true u hrec]
            rfl
  | none =>
    have hca : get_user (create_user db tid 0 none none) tid =
        some ⟨tid, 0, none, none, false, false⟩ :=
      get_user_create_absent db tid 0 none none hrec
    cases chk with
    | error =>
      have hva : verify_and_activate .error tid db = (create_user db tid 0 none none, []) := by
        simp only [verify_and_activate, hrec, hca]
        rfl
      rw [hva]
      exact ⟨fun t r0 h => referrer_of_create_pres db tid 0 none none t r0 h,
        fun hs => noself_create_pres db tid 0 none none (by simp) hs,
        fun t h => verified_monotone_create db tid 0 none none t h,
        fun uid chat hw => by simp at hw⟩
    | ok allowed =>
      cases allowed with
      | false =>
        have hva : verify_and_activate (.ok false) tid db =
            (create_user db tid 0 none none, []) := by
          simp only [verify_and_activate, hrec, hca]
          rfl
        rw [hva]
        exact ⟨fun t r0 h => referrer_of_create_pres db tid 0 none none t r0 h,
          fun hs => noself_create_pres db tid 0 none none (by simp) hs,
          fun t h => verified_monotone_create db tid 0 none none t h,
          fun uid chat hw => by simp at hw⟩
      | true =>
        have hva : verify_and_activate (.ok true) tid db =
            (set_flyer_verified (create_user db tid 0 none none) tid true,
              [.welcome tid none]) := by
          simp only [verify_and_activate, hrec, hca]
          rfl
        rw [hva]
        refine ⟨fun t r0 h => by
            rw [referrer_of_setverified]
            exact referrer_of_create_pres db tid 0 none none t r0 h,
          fun hs => noself_setverified _ tid true
            (noself_create_pres db tid 0 none none (by simp) hs),
          fun t h => verified_monotone_setverified_true _ tid t
            (verified_monotone_create db tid 0 none none t h),
          fun uid chat hw => ?_⟩
        simp at hw
        obtain ⟨h1, _⟩ := hw
        subst h1
        constructor
        · rw [hrec]
          rfl
        · rw [get_user_setverified_eq _ uid true _ hca]
          rfl

theorem audit_user_step_spec (chks : Int → CheckResult) (acc : Db × List Effect)
    (u : User) :
    (∀ t r0, referrer_of acc.1 t = some r0 →
      referrer_of (audit_user_step chks acc u).1 t = some r0) ∧
    (NoSelfReferral acc.1 → NoSelfReferral (audit_user_step chks acc u).1) ∧
    (∀ t, record_is_verified (get_user acc.1 t) = true →
      record_is_verified (get_user (audit_user_step chks acc u).1 t) = true) ∧
    (∀ uid chat, Effect.welcome uid chat ∈ (audit_user_step chks acc u).2 →
      Effect.welcome uid chat ∈ acc.2 ∨
        (record_is_verified (get_user acc.1 uid) = false ∧
          record_is_verified (get_user (audit_user_step chks acc u).1 uid) = true)) := by
  cases hg : (pyTruthyOptInt u.referred_by && u.is_subscribed) with
  | false =>
    have hstep : audit_user_step chks acc u = acc := by
      simp only [audit_user_step, hg, Bool.not_false, if_true]
    rw [hstep]
    exact ⟨fun t r0 h => h, fun hs => hs, fun t h => h, fun uid chat hw => Or.inl hw⟩
  | true =>
    have hstep : audit_user_step chks acc u =
        ((verify_and_activate (chks u.telegram_id) u.telegram_id acc.1).1,
          acc.2 ++ (verify_and_activate (chks u.telegram_id) u.telegram_id acc.1).2) := by
      simp only [audit_user_step, hg, Bool.not_true, Bool.false_eq_true, if_false]
    obtain ⟨v1, v2, v3, v4⟩ := verify_and_activate_spec (chks u.telegram_id) u.telegram_id acc.1
    rw [hstep]
    refine ⟨v1, v2, v3, fun uid chat hw => ?_⟩
    rcases List.mem_append.mp hw with hin | hin
    · exact Or.inl hin
    · exact Or.inr (v4 uid chat hin)

theorem audit_fold_spec (chks : Int → CheckResult) (l : List User) :
    ∀ acc : Db × List Effect,
      (∀ t r0, referrer_of acc.1 t = some r0 →
        referrer_of (l.foldl (audit_user_step chks) acc).1 t = some r0) ∧
      (NoSelfReferral acc.1 → NoSelfReferral (l.foldl (audit_user_step chks) acc).1) ∧
      (∀ t, record_is_verified (get_user acc.1 t) = true →
        record_is_verified (get_user (l.foldl (audit_user_step chks) acc).1 t) = true) ∧
      (∀ uid chat, Effect.welcome uid chat ∈ (l.foldl (audit_user_step chks) acc).2 →
        Effect.welcome uid chat ∈ acc.2 ∨
          (record_is_verified (get_user acc.1 uid) = false ∧
            record_is_verified (get_user (l.foldl (audit_user_step chks) acc).1 uid) = true)) := by
  induction l with
  | nil =>
    intro acc
    exact ⟨fun t r0 h => h, fun hs => hs, fun t h => h, fun uid chat hw => Or.inl hw⟩
  | cons u rest ih =>
    intro acc
    rw [List.foldl_cons]
    obtain ⟨q1, q2, q3, q4⟩ := audit_user_step_spec chks acc u
    obtain ⟨p1, p2, p3, p4⟩ := ih (audit_user_step chks acc u)
    refine ⟨fun t r0 h => p1 t r0 (q1 t r0 h), fun hs => p2 (q2 hs),
      fun t h => p3 t (q3 t h), fun uid chat hw => ?_⟩
    rcases p4 uid chat hw with hin | ⟨hpre, hpost⟩
    · rcases q4 uid chat hin with hin' | ⟨hpre', hpost'⟩
      · exact Or.inl hin'
      · exact Or.inr ⟨hpre', p3 uid hpost'⟩
    · right
      refine ⟨?_, hpost⟩
      cases hcc : record_is_verified (get_user acc.1 uid) with
      | false => rfl
      | true => exact (Bool.false_ne_true (hpre.symm.trans (q3 uid hcc))).elim

/-- Full characterization of one fault-free reconciliation sweep. -/
theorem audit_cycle_spec (chks : Int → CheckResult) (db : Db) :
    (∀ t r0, referrer_of db t = some r0 →
      referrer_of (audit_cycle chks db).1 t = some r0) ∧
    (NoSelfReferral db → NoSelfReferral (audit_cycle chks db).1) ∧
    (∀ uid chat, Effect.welcome uid chat ∈ (audit_cycle chks db).2 →
      record_is_verified (get_user db uid) = false ∧
      record_is_verified (get_user (audit_cycle chks db).1 uid) = true) := by
  obtain ⟨p1, p2, _, p4⟩ := audit_fold_spec chks (list_all_users db) (db, [])
  refine ⟨p1, p2, fun uid chat hw => ?_⟩
  rcases p4 uid chat hw with hin | hother
  · simp at hin
  · exact hother

/-- Full characterization of one sequential stimulus step, combining the
gate, webhook and reconciler characterizations. -/
theorem step_spec (db : Db) (op : Op) :
    (∀ t r0, referrer_of db t = some r0 → referrer_of (step db op).1 t = some r0) ∧
    (NoSelfReferral db → NoSelfReferral (step db op).1) ∧
    (∀ uid chat, Effect.welcome uid chat ∈ (step db op).2 →
      record_is_verified (get_user db uid) = false ∧
      record_is_verified (get_user (step db op).1 uid) = true ∧
      (∀ event ctx chk, op = .gate event ctx chk →
        msg_is_start event = false ∧ gate_chat_id event ≠ none ∧ ctx.user ≠ none)) := by
  cases op with
  | gate event ctx chk =>
    obtain ⟨g, hg, p1, p2, p3⟩ := flyer_gate_noFault_spec event ctx chk db
    have hstep : step db (.gate event ctx chk) = (g.db, g.effects) := by
      simp only [step, hg]
    rw [hstep]
    refine ⟨p1, p2, fun uid chat hw => ?_⟩
    obtain ⟨w1, w2, w3, w4, w5⟩ := p3 uid chat hw
    refine ⟨w1, w2, fun event' ctx' chk' heq => ?_⟩
    injection heq with h1 h2 h3
    subst h1
    subst h2
    exact ⟨w3, w4, w5⟩
  | webhook body =>
    rcases flyer_webhook_noFault_spec body db with ⟨db', es, hq, p1, p2, p3⟩ | hq
    · have hstep : step db (.webhook body) = (db', es) := by
        simp only [step, hq]
      rw [hstep]
      refine ⟨p1, p2, fun uid chat hw => ?_⟩
      obtain ⟨w1, w2⟩ := p3 uid chat hw
      exact ⟨w1, w2, fun event ctx chk heq => by cases heq⟩
    · have hstep : step db (.webhook body) = (db, []) := by
        simp only [step, hq]
      rw [hstep]
      exact ⟨fun t r0 h => h, fun hs => hs, fun uid chat hw => by simp at hw⟩
  | audit chks =>
    obtain ⟨p1, p2, p3⟩ := audit_cycle_spec chks db
    refine ⟨p1, p2, fun uid chat hw => ?_⟩
    obtain ⟨w1, w2⟩ := p3 uid chat hw
    exact ⟨w1, w2, fun event ctx chk heq => by cases heq⟩

theorem run_fold_referrer (ops : List Op) :
    ∀ acc : Db × List Effect,
      (∀ t r0, referrer_of acc.1 t = some r0 →
        referrer_of (ops.foldl run_step acc).1 t = some r0) ∧
      (NoSelfReferral acc.1 → NoSelfReferral (ops.foldl run_step acc).1) := by
  induction ops with
  | nil => exact fun acc => ⟨fun t r0 h => h, fun hs => hs⟩
  | cons op rest ih =>
    intro acc
    rw [List.foldl_cons]
    obtain ⟨p1, p2⟩ := ih (run_step acc op)
    obtain ⟨q1, q2, _⟩ := step_spec acc.1 op
    have h1 : (run_step acc op).1 = (step acc.1 op).1 := rfl
    refine ⟨fun t r0 h => p1 t r0 ?_, fun hs => p2 ?_⟩
    · rw [h1]
      exact q1 t r0 h
    · rw [h1]
      exact q2 hs

/-! Claim C2 -/

/-- C2 counterexample: the welcome trigger fires twice across the lifetime
of user 9's record — a subscription completion, an unsubscription reset,
and a second completion yield two welcome-flow attempts — so "at most once
across the full lifetime of the record" fails. -/
theorem c2_counterexample :
    countWelcome (run_ops [] [.webhook (some (subPayload 9)),
      .webhook (some (abortPayload 9)), .webhook (some (subPayload 9))]).2 9 = 2 := by
  rfl

/-- C2 amended: on every single step of any stimulus channel, a welcome
effect for a user is emitted only when the pre-write value of that user's
flyerVerified is false, and the step leaves the user verified (so between
two welcome triggers for the same user the flag must have been reset);
moreover the interactive gate emits it only when the current event is not a
message whose raw text starts with "/start", a chat target is known, and
the triggering user is known. -/
theorem c2_welcome_only_on_transition (db : Db) (op : Op) (uid : Int)
    (chat : Option Int) (hw : Effect.welcome uid chat ∈ (step db op).2) :
    record_is_verified (get_user db uid) = false ∧
    record_is_verified (get_user (step db op).1 uid) = true ∧
    (∀ event ctx chk, op = .gate event ctx chk →
      msg_is_start event = false ∧ gate_chat_id event ≠ none ∧ ctx.user ≠ none) :=
  (step_spec db op).2.2 uid chat hw

/-- Witness for C2 amended: the first sub_completed webhook for a fresh
user emits a welcome on its false-to-true transition. -/
theorem c2_welcome_only_on_transition_witness :
    Effect.welcome 9 (some 9) ∈ (step [] (.webhook (some (subPayload 9)))).2 ∧
    (record_is_verified (get_user [] 9) = false ∧
      record_is_verified (get_user (step [] (.webhook (some (subPayload 9)))).1 9) = true ∧
      (∀ event ctx chk, Op.webhook (some (subPayload 9)) = .gate event ctx chk →
        msg_is_start event = false ∧ gate_chat_id event ≠ none ∧ ctx.user ≠ none)) :=
  ⟨by decide, c2_welcome_only_on_transition [] (.webhook (some (subPayload 9))) 9 (some 9)
    (by decide)⟩

/-! Claim C3 -/

/-- C3: across every sequence of gate, webhook, and reconciler steps, a
non-null referredBy is never overwritten with a different value (it stays
exactly what it was), and no record ever refers to itself, for any starting
database already free of self-referrals (in particular the empty one). -/
theorem c3_referrer_write_once_no_self (db : Db) (ops : List Op)
    (hs : NoSelfReferral db) :
    NoSelfReferral (run_ops db ops).1 ∧
    (∀ tid r, referrer_of db tid = some r →
      referrer_of (run_ops db ops).1 tid = some r) := by
  obtain ⟨p1, p2⟩ := run_fold_referrer ops (db, [])
  exact ⟨p2 hs, fun tid r h => p1 tid r h⟩

/-- Witness for C3: a record with referrer 7 keeps it across an
unsubscription reset and a re-completion, with no self-referral appearing. -/
theorem c3_referrer_write_once_no_self_witness :
    NoSelfReferral ([⟨42, 0, none, some 7, true, true⟩] : Db) ∧
    (NoSelfReferral (run_ops [⟨42, 0, none, some 7, true, true⟩]
        [.webhook (some (abortPayload 42)), .webhook (some (subPayload 42))]).1 ∧
      (∀ tid r, referrer_of [⟨42, 0, none, some 7, true, true⟩] tid = some r →
        referrer_of (run_ops [⟨42, 0, none, some 7, true, true⟩]
          [.webhook (some (abortPayload 42)), .webhook (some (subPayload 42))]).1 tid =
          some r)) :=
  ⟨by unfold NoSelfReferral; decide, c3_referrer_write_once_no_self
    [⟨42, 0, none, some 7, true, true⟩]
    [.webhook (some (abortPayload 42)), .webhook (some (subPayload 42))]
    (by unfold NoSelfReferral; decide)⟩

/-! Claim C7: string lemmas relating the source extractor's strip/split(maxsplit=1)
processing to the whitespace-token view used by the claim's wording. -/

/-- The head of a non-empty `dropWhile` result does not satisfy the predicate. -/
theorem dropWhile_head_nonsat (p : Char → Bool) (l : List Char) (a : Char) (as : List Char)
    (h : l.dropWhile p = a :: as) : p a = false := by
  induction l with
  | nil => simp at h
  | cons b bs ih =>
    rw [List.dropWhile_cons] at h
    by_cases hb : p b = true
    · rw [if_pos hb] at h; exact ih h
    · rw [if_neg hb] at h
      injection h with h1 h2
      subst h1
      simpa using hb

/-- Idempotence of `dropWhile`. -/
theorem dropWhile_idem (p : Char → Bool) (l : List Char) :
    (l.dropWhile p).dropWhile p = l.dropWhile p := by
  cases h : l.dropWhile p with
  | nil => rfl
  | cons a as =>
    have ha := dropWhile_head_nonsat p l a as h
    rw [List.dropWhile_cons, if_neg]
    rw [ha]
    exact Bool.false_ne_true

/-- Dropping leading whitespace splits as the fully stripped core followed by
a trailing run of whitespace. -/
theorem strip_decomp (x : PStr) :
    ∃ w, x.dropWhile pyIsSpace = pyStrip x ++ w ∧ ∀ a ∈ w, pyIsSpace a = true := by
  refine ⟨((x.dropWhile pyIsSpace).reverse.takeWhile pyIsSpace).reverse, ?_, ?_⟩
  · rw [pyStrip, ← List.reverse_append, List.takeWhile_append_dropWhile, List.reverse_reverse]
  · intro a ha
    rw [List.mem_reverse] at ha
    exact List.mem_takeWhile_imp ha

/-- A trailing all-whitespace run does not change the first whitespace-free run. -/
theorem takeWhile_append_spaces (x w : PStr) (hw : ∀ a ∈ w, pyIsSpace a = true) :
    (x ++ w).takeWhile (fun d => !pyIsSpace d) = x.takeWhile (fun d => !pyIsSpace d) := by
  induction x with
  | nil =>
    rw [List.nil_append, List.takeWhile_nil]
    cases w with
    | nil => rfl
    | cons a as =>
      rw [List.takeWhile_cons]
      have := hw a (List.mem_cons_self a as)
      simp [this]
  | cons b bs ih =>
    rw [List.cons_append, List.takeWhile_cons, List.takeWhile_cons, ih]

/-- On a string with no leading whitespace, stripping does not change the first
whitespace-free run. -/
theorem takeWhile_pyStrip (x : PStr) (hx : x.dropWhile pyIsSpace = x) :
    (pyStrip x).takeWhile (fun d => !pyIsSpace d) = x.takeWhile (fun d => !pyIsSpace d) := by
  obtain ⟨w, hdec, hw⟩ := strip_decomp x
  rw [hx] at hdec
  conv_rhs => rw [hdec]
  rw [takeWhile_append_spaces _ w hw]

/-- A whitespace-free pattern is a prefix of `s` iff it is a prefix of the first
whitespace-free run of `s`. -/
theorem startsWith_nonspace_takeWhile :
    ∀ p : PStr, (∀ a ∈ p, pyIsSpace a = false) →
      ∀ s : PStr, startsWithL p s = startsWithL p (s.takeWhile (fun d => !pyIsSpace d)) := by
  intro p
  induction p with
  | nil => intro _ s; rfl
  | cons a p ih =>
    intro hp s
    cases s with
    | nil => rfl
    | cons b bs =>
      rw [List.takeWhile_cons]
      cases hb : pyIsSpace b with
      | true =>
        have ha : pyIsSpace a = false := hp a (List.mem_cons_self a p)
        have hab : (a == b) = false := by
          apply beq_eq_false_iff_ne.mpr
          intro he
          rw [he] at ha
          simp [ha] at hb
        simp [startsWithL, hab, hb]
      | false =>
        have ih1 := ih (fun x hx => hp x (List.mem_cons_of_mem a hx)) bs
        simp [startsWithL, hb, ih1]

/-- First unfolding equation of `pyWords`, empty case. -/
theorem pyWords_eq_nil (s : PStr) (h : s.dropWhile pyIsSpace = []) : pyWords s = [] := by
  rw [pyWords]
  split
  · rfl
  · rename_i c1 cs1 heq
    rw [h] at heq
    cases heq

/-- First unfolding equation of `pyWords`, word case. -/
theorem pyWords_eq_cons (s : PStr) (c : Char) (cs : PStr) (h : s.dropWhile pyIsSpace = c :: cs) :
    pyWords s =
      (c :: cs.takeWhile (fun d => !pyIsSpace d)) :: pyWords (cs.dropWhile (fun d => !pyIsSpace d)) := by
  rw [pyWords]
  split
  · rename_i heq
    rw [h] at heq
    cases heq
  · rename_i c1 cs1 heq
    rw [h] at heq
    injection heq with h1 h2
    subst h1
    subst h2
    rfl

/-- Symmetry of the character equality test. -/
theorem char_beq_comm (a b : Char) : (a == b) = (b == a) := by
  by_cases h : a = b
  · rw [h]
  · rw [beq_eq_false_iff_ne.mpr h, beq_eq_false_iff_ne.mpr (Ne.symm h)]

/-- The argument-token parser of the source extractor agrees with the claim's
token recognizer followed by the self-referral discard. -/
theorem arg_parse_eq (arg : PStr) (uid : Int) :
    (if !startsWithL "ref".toList (pyLower arg) then none
     else
       let rest := arg.drop 3
       if rest.isEmpty || !rest.all Char.isDigit then none
       else
         let referredBy : Int := (digitsVal rest : Nat)
         if referredBy == uid then none
         else some referredBy)
    = (match refTokenValue arg with
       | some r => if (r : Int) = uid then none else some (r : Int)
       | none => none) := by
  match arg with
  | [] => rfl
  | [c1] => simp [pyLower, startsWithL, refTokenValue]
  | [c1, c2] => simp [pyLower, startsWithL, refTokenValue]
  | c1 :: c2 :: c3 :: ds =>
    simp only [pyLower, List.map_cons, refTokenValue,
      show "ref".toList = ['r', 'e', 'f'] from rfl, startsWithL, Bool.and_true,
      Bool.and_assoc, char_beq_comm 'r', char_beq_comm 'e', char_beq_comm 'f',
      List.drop_succ_cons, List.drop_zero]
    cases hr : c1.toLower == 'r' <;> cases he : c2.toLower == 'e' <;>
      cases hf : c3.toLower == 'f' <;> cases hemp : ds.isEmpty <;>
      cases hdig : ds.all Char.isDigit <;> simp [beq_iff_eq]

/-- Core of claim C7 over an already stripped text `T`. -/
theorem extract_core (T : PStr) (hlead : T.dropWhile pyIsSpace = T) (uid : Int) :
    (if !startsWithL "/start".toList T then none
     else
       match pySplitMax1 T with
       | _ :: part1 :: _ =>
         let arg := (pyStrip part1).takeWhile (fun c => !pyIsSpace c)
         if !startsWithL "ref".toList (pyLower arg) then none
         else
           let rest := arg.drop 3
           if rest.isEmpty || !rest.all Char.isDigit then none
           else
             let referredBy : Int := (digitsVal rest : Nat)
             if referredBy == uid then none
             else some referredBy
       | _ => none)
    = (match pyWords T with
       | tok0 :: tok1 :: _ =>
         if startsWithL "/start".toList tok0 then
           match refTokenValue tok1 with
           | some r => if (r : Int) = uid then none else some (r : Int)
           | none => none
         else none
       | _ => none) := by
  cases T with
  | nil =>
    rw [pyWords_eq_nil [] rfl]
    rfl
  | cons c cs =>
    have hc : pyIsSpace c = false := by
      cases hcond : pyIsSpace c with
      | false => rfl
      | true =>
        exfalso
        rw [List.dropWhile_cons, if_pos hcond] at hlead
        have hl := dropWhile_length_le pyIsSpace cs
        rw [hlead] at hl
        simp only [List.length_cons] at hl
        omega
    have htok0 : (c :: cs).takeWhile (fun d => !pyIsSpace d) = c :: cs.takeWhile (fun d => !pyIsSpace d) := by
      rw [List.takeWhile_cons]
      simp [hc]
    have hdropns : (c :: cs).dropWhile (fun d => !pyIsSpace d) = cs.dropWhile (fun d => !pyIsSpace d) := by
      rw [List.dropWhile_cons]
      simp [hc]
    have hsplit : pySplitMax1 (c :: cs) =
        match (cs.dropWhile (fun d => !pyIsSpace d)).dropWhile pyIsSpace with
        | [] => [c :: cs.takeWhile (fun d => !pyIsSpace d)]
        | _ :: _ => [c :: cs.takeWhile (fun d => !pyIsSpace d),
            (cs.dropWhile (fun d => !pyIsSpace d)).dropWhile pyIsSpace] := by
      simp only [pySplitMax1]
      rw [hlead]
      dsimp only
      rw [htok0, hdropns]
    have hstart := startsWith_nonspace_takeWhile "/start".toList (by decide) (c :: cs)
    rw [htok0] at hstart
    rw [hsplit, pyWords_eq_cons (c :: cs) c cs hlead]
    cases hRc : (cs.dropWhile (fun d => !pyIsSpace d)).dropWhile pyIsSpace with
    | nil =>
      rw [pyWords_eq_nil (cs.dropWhile (fun d => !pyIsSpace d)) hRc]
      cases startsWithL "/start".toList (c :: cs) <;> rfl
    | cons d ds =>
      have hdns : pyIsSpace d = false :=
        dropWhile_head_nonsat pyIsSpace (cs.dropWhile (fun x => !pyIsSpace x)) d ds hRc
      rw [pyWords_eq_cons (cs.dropWhile (fun d => !pyIsSpace d)) d ds hRc]
      have hRlead : (d :: ds).dropWhile pyIsSpace = d :: ds := by
        rw [List.dropWhile_cons]
        simp [hdns]
      have harg : (pyStrip (d :: ds)).takeWhile (fun x => !pyIsSpace x)
          = d :: ds.takeWhile (fun x => !pyIsSpace x) := by
        rw [takeWhile_pyStrip (d :: ds) hRlead, List.takeWhile_cons]
        simp [hdns]
      dsimp only
      rw [harg, hstart]
      cases hb : startsWithL "/start".toList (c :: cs.takeWhile (fun d => !pyIsSpace d)) with
      | false => rfl
      | true => exact arg_parse_eq (d :: ds.takeWhile (fun x => !pyIsSpace x)) uid

/-- The stripped form of a string has no leading whitespace. -/
theorem pyStrip_no_lead (x : PStr) : (pyStrip x).dropWhile pyIsSpace = pyStrip x := by
  obtain ⟨w, hdec, hw⟩ := strip_decomp x
  cases hs : pyStrip x with
  | nil => rfl
  | cons c cs =>
    rw [List.dropWhile_cons, if_neg]
    have hy : (x.dropWhile pyIsSpace).dropWhile pyIsSpace = x.dropWhile pyIsSpace :=
      dropWhile_idem pyIsSpace x
    rw [hs] at hdec
    rw [hdec, List.cons_append] at hy
    have hc : pyIsSpace c = false := by
      cases hcond : pyIsSpace c with
      | false => rfl
      | true =>
        exfalso
        rw [List.dropWhile_cons, if_pos hcond] at hy
        have hl := dropWhile_length_le pyIsSpace (cs ++ w)
        rw [hy] at hl
        simp only [List.length_cons] at hl
        omega
    rw [hc]
    exact Bool.false_ne_true

/-- C7: on every message payload, the source extractor `_extract_referred_by`
returns exactly what the claim's split-rule prescribes: a referrer id `r` iff the
stripped payload's first whitespace token begins with "/start" and its second
token is the case-insensitive prefix "ref" followed by one or more decimal
digits of value `r ≠` the user's own id; every other payload shape (including
non-message events) and a self-referencing value yield no referral code. -/
theorem c7_extractor_matches_split_rule (textOpt : Option PStr) (chatId : Int)
    (mcid : Option Int) (uid : Int) :
    extract_referred_by (.message textOpt chatId) uid
        = spec_referral_code (textOpt.getD []) uid
      ∧ extract_referred_by (.callbackQuery mcid) uid = none
      ∧ extract_referred_by .other uid = none := by
  refine ⟨?_, rfl, rfl⟩
  exact extract_core (pyStrip (textOpt.getD [])) (pyStrip_no_lead (textOpt.getD [])) uid


end BotTest
